import Mathlib

/-!
Verification development for the CubeASCII ray-casting engine
(src/cubeascii.c).

The C program is shallowly embedded below.  C `float` arithmetic is
modelled as exact arithmetic in an arbitrary linear ordered field `α`
(instantiated with `ℚ` for concrete evaluations and with `ℝ` when the
trigonometric rotation is involved); `(int)` casts of floats are
modelled by truncation towards zero (`c_trunc`), and C `int` division
by truncated division (`c_idiv`).  The global `char *map[]` is embedded
as a list of the very same string literals; indexing a string out of
bounds is undefined behaviour in C and is modelled here as yielding the
wall character `'1'` (such accesses are never reached in the proved
statements, or are explicitly shown to be in bounds).  The unbounded
`while` loop of `perform_dda` is modelled with an explicit fuel
parameter (`dda_loop`); termination claims show that a definite number
of steps suffices, independently of the fuel.
-/

namespace CubeAscii

/-- Truncation towards zero, the semantics of a C `(int)` cast applied to a
nonnegative-or-negative real value (`(int)3.7 = 3`, `(int)(-3.7) = -3`). -/
def c_trunc {α : Type} [LinearOrderedField α] [FloorRing α] (r : α) : ℤ :=
  if 0 ≤ r then ⌊r⌋ else ⌈r⌉

/-- C `int` division truncates towards zero (C99 6.5.5); it is only ever
used here with positive divisors. -/
def c_idiv (a b : ℤ) : ℤ :=
  if 0 ≤ a then a / b else -((-a) / b)

-- === CONFIGURATION (from the `#define` block of cubeascii.c) ===

def MAP_WIDTH : ℤ := 16
def MAP_HEIGHT : ℤ := 16
def SCREEN_WIDTH : ℤ := 90
def SCREEN_HEIGHT : ℤ := 50

def RED_1 : String := "\x1b[48;2;255;50;50m"
def RED_2 : String := "\x1b[48;2;200;30;30m"
def RED_3 : String := "\x1b[48;2;150;20;20m"
def RED_4 : String := "\x1b[48;2;100;10;10m"
def RED_5 : String := "\x1b[48;2;60;5;5m"

/-- The scene map, verbatim from `char *map[]` in cubeascii.c. -/
def map : List String :=
  [ "1111111111111111",
    "1100000000000001",
    "1101010101010101",
    "1100000000000001",
    "1000000000001101",
    "1011110001111101",
    "1001100000111101",
    "1001000100100001",
    "1111000000100111",
    "1110111110001111",
    "1010001000001111",
    "1011100001111001",
    "1000011000000001",
    "1011001000000001",
    "100110000P000001",
    "1111111111111111" ]

/-- Cell lookup `rows[y][x]` for a parsed character grid.  A C access with
a negative or too large index is undefined behaviour; it is modelled as
the wall character `'1'` (the conservative choice, consistent with the
enclosing border; the theorems that depend on grid reads establish that
the relevant accesses stay in bounds). -/
def cell_of (rows : List String) (y x : ℤ) : Char :=
  if 0 ≤ y ∧ 0 ≤ x then (rows.getD y.toNat "").data.getD x.toNat '1' else '1'

/-- Access to the global `map` of cubeascii.c, `map[y][x]`. -/
def map_cell (y x : ℤ) : Char :=
  cell_of map y x

/-- The player state `t_player` of cubeascii.c, with `float` fields
modelled over a linear ordered field `α`. -/
structure t_player (α : Type) where
  x : α
  y : α
  dirX : α
  dirY : α
  planeX : α
  planeY : α
deriving DecidableEq

/-- The per-column ray state `t_ray` of cubeascii.c.  The `int hit` flag
is modelled as a `Bool` (the C code only ever stores 0 or 1 in it) and
`side` keeps its C type `int` (0 = X-side, 1 = Y-side). -/
structure t_ray (α : Type) where
  cameraX : α
  rayDirX : α
  rayDirY : α
  mapX : ℤ
  mapY : ℤ
  deltaDistX : α
  deltaDistY : α
  sideDistX : α
  sideDistY : α
  stepX : ℤ
  stepY : ℤ
  hit : Bool
  side : ℤ
  perpWallDist : α
deriving DecidableEq

/-- The per-column output of `compute_wall_slice`: the values stored into
the global buffers `draw_start[x]`, `draw_end[x]` and `wallColor[x]`. -/
structure wall_slice where
  draw_start : ℤ
  draw_end : ℤ
  color : String
deriving DecidableEq

variable {α : Type} [LinearOrderedField α] [FloorRing α]

/-- `get_shade` from cubeascii.c: red shade by distance, closer is
brighter. -/
def get_shade (dist : α) : String :=
  if dist < 3/2 then RED_1
  else if dist < 3 then RED_2
  else if dist < 5 then RED_3
  else if dist < 7 then RED_4
  else RED_5

/-- The red channel of each shade colour, read off the RGB escape
sequences `RED_1` … `RED_5` (255, 200, 150, 100, 60); used to state
monotonicity of the shading.  Any other string maps to 0. -/
def shade_red_level (s : String) : ℕ :=
  if s = RED_1 then 255
  else if s = RED_2 then 200
  else if s = RED_3 then 150
  else if s = RED_4 then 100
  else if s = RED_5 then 60
  else 0

/-- `init_ray` from cubeascii.c.  The C struct fields not written by
`init_ray` (`sideDist`, `step`, `side`, `perpWallDist`) are
uninitialized in C at this point and are given the value 0 here; each of
them is overwritten (by `compute_initial_steps` and by the DDA loop)
before it is ever read. -/
def init_ray (column : ℤ) (player : t_player α) : t_ray α :=
  let cameraX : α := 2 * (column : α) / (SCREEN_WIDTH : α) - 1
  let rayDirX : α := player.dirX + player.planeX * cameraX
  let rayDirY : α := player.dirY + player.planeY * cameraX
  { cameraX := cameraX
    rayDirX := rayDirX
    rayDirY := rayDirY
    mapX := c_trunc player.x
    mapY := c_trunc player.y
    deltaDistX := if rayDirX ≠ 0 then |1 / rayDirX| else 1e30
    deltaDistY := if rayDirY ≠ 0 then |1 / rayDirY| else 1e30
    sideDistX := 0
    sideDistY := 0
    stepX := 0
    stepY := 0
    hit := false
    side := 0
    perpWallDist := 0 }

/-- `compute_initial_steps` from cubeascii.c. -/
def compute_initial_steps (ray : t_ray α) (player : t_player α) : t_ray α :=
  let ray :=
    if ray.rayDirX < 0 then
      { ray with stepX := -1,
                 sideDistX := (player.x - (ray.mapX : α)) * ray.deltaDistX }
    else
      { ray with stepX := 1,
                 sideDistX := ((ray.mapX : α) + 1 - player.x) * ray.deltaDistX }
  if ray.rayDirY < 0 then
    { ray with stepY := -1,
               sideDistY := (player.y - (ray.mapY : α)) * ray.deltaDistY }
  else
    { ray with stepY := 1,
               sideDistY := ((ray.mapY : α) + 1 - player.y) * ray.deltaDistY }

/-- One iteration of the `while (!ray->hit)` loop body of `perform_dda`,
parametrised by the grid `g` (the C code reads the global `map`, i.e.
`g = map_cell`). -/
def dda_step (g : ℤ → ℤ → Char) (ray : t_ray α) : t_ray α :=
  let ray :=
    if ray.sideDistX < ray.sideDistY then
      { ray with sideDistX := ray.sideDistX + ray.deltaDistX,
                 mapX := ray.mapX + ray.stepX,
                 side := 0 }
    else
      { ray with sideDistY := ray.sideDistY + ray.deltaDistY,
                 mapY := ray.mapY + ray.stepY,
                 side := 1 }
  if g ray.mapY ray.mapX = '1' then { ray with hit := true } else ray

/-- The `while (!ray->hit)` loop of `perform_dda`, with explicit fuel
(the C loop is unbounded; the termination theorem shows a bounded number
of steps suffices). -/
def dda_loop (g : ℤ → ℤ → Char) : ℕ → t_ray α → t_ray α
  | 0, ray => ray
  | fuel + 1, ray => if ray.hit then ray else dda_loop g fuel (dda_step g ray)

/-- `n` unconditional iterations of the DDA loop body, used to reason
about the traversal step by step. -/
def dda_iter (g : ℤ → ℤ → Char) (n : ℕ) (ray : t_ray α) : t_ray α :=
  (dda_step g)^[n] ray

/-- `perform_dda` from cubeascii.c: run the loop, then compute the
perpendicular wall distance from the side of the final step. -/
def perform_dda (g : ℤ → ℤ → Char) (fuel : ℕ) (ray0 : t_ray α) : t_ray α :=
  let ray := dda_loop g fuel ray0
  if ray.side = 0 then { ray with perpWallDist := ray.sideDistX - ray.deltaDistX }
  else { ray with perpWallDist := ray.sideDistY - ray.deltaDistY }

/-- The `lineHeight = (int)(SCREEN_HEIGHT / ray->perpWallDist)` computation
of `compute_wall_slice`: the division is applied to the perpendicular
distance directly, with no adjustment. -/
def slice_line_height (perpWallDist : α) : ℤ :=
  c_trunc ((SCREEN_HEIGHT : α) / perpWallDist)

/-- `compute_wall_slice` from cubeascii.c, returning the values written
into `draw_start[x]`, `draw_end[x]` and `wallColor[x]`. -/
def compute_wall_slice (ray : t_ray α) : wall_slice :=
  let lineHeight : ℤ := slice_line_height ray.perpWallDist
  let start : ℤ := c_idiv (-lineHeight) 2 + c_idiv SCREEN_HEIGHT 2
  let stop : ℤ := c_idiv lineHeight 2 + c_idiv SCREEN_HEIGHT 2
  let start := if start < 0 then 0 else start
  let stop := if stop ≥ SCREEN_HEIGHT then SCREEN_HEIGHT - 1 else stop
  { draw_start := start, draw_end := stop, color := get_shade ray.perpWallDist }

/-- `move_player` from cubeascii.c.  The trigonometric functions are
passed as parameters `cosf`, `sinf` (instantiated with `Real.cos`,
`Real.sin` over `ℝ`); the translation branches do not use them.  The
source's sequence of `if (key == …)` statements is mirrored; at most one
branch fires since the key characters are distinct.  The simultaneous
vector rotation written in C with the temporaries `oldDirX`,
`oldPlaneX` is expressed by a single record update. -/
def move_player (cosf sinf : α → α) (p0 : t_player α) (key : Char) : t_player α :=
  let moveSpeed : α := 1/10
  let rotSpeed : α := 1/20
  let p1 :=
    if key = 'w' then
      let newX := p0.x + p0.dirX * moveSpeed
      let newY := p0.y + p0.dirY * moveSpeed
      let pa := if map_cell (c_trunc newY) (c_trunc p0.x) ≠ '1' then { p0 with y := newY } else p0
      if map_cell (c_trunc pa.y) (c_trunc newX) ≠ '1' then { pa with x := newX } else pa
    else p0
  let p2 :=
    if key = 's' then
      let newX := p1.x - p1.dirX * moveSpeed
      let newY := p1.y - p1.dirY * moveSpeed
      let pa := if map_cell (c_trunc newY) (c_trunc p1.x) ≠ '1' then { p1 with y := newY } else p1
      if map_cell (c_trunc pa.y) (c_trunc newX) ≠ '1' then { pa with x := newX } else pa
    else p1
  let p3 :=
    if key = 'a' then
      let newX := p2.x - p2.planeX * moveSpeed
      let newY := p2.y - p2.planeY * moveSpeed
      let pa := if map_cell (c_trunc newY) (c_trunc p2.x) ≠ '1' then { p2 with y := newY } else p2
      if map_cell (c_trunc pa.y) (c_trunc newX) ≠ '1' then { pa with x := newX } else pa
    else p2
  let p4 :=
    if key = 'd' then
      let newX := p3.x + p3.planeX * moveSpeed
      let newY := p3.y + p3.planeY * moveSpeed
      let pa := if map_cell (c_trunc newY) (c_trunc p3.x) ≠ '1' then { p3 with y := newY } else p3
      if map_cell (c_trunc pa.y) (c_trunc newX) ≠ '1' then { pa with x := newX } else pa
    else p3
  let p5 :=
    if key = 'e' then
      { p4 with
        dirX := p4.dirX * cosf rotSpeed - p4.dirY * sinf rotSpeed,
        dirY := p4.dirX * sinf rotSpeed + p4.dirY * cosf rotSpeed,
        planeX := p4.planeX * cosf rotSpeed - p4.planeY * sinf rotSpeed,
        planeY := p4.planeX * sinf rotSpeed + p4.planeY * cosf rotSpeed }
    else p4
  if key = 'q' then
    { p5 with
      dirX := p5.dirX * cosf (-rotSpeed) - p5.dirY * sinf (-rotSpeed),
      dirY := p5.dirX * sinf (-rotSpeed) + p5.dirY * cosf (-rotSpeed),
      planeX := p5.planeX * cosf (-rotSpeed) - p5.planeY * sinf (-rotSpeed),
      planeY := p5.planeX * sinf (-rotSpeed) + p5.planeY * cosf (-rotSpeed) }
  else p5

/-- The player value that the spawn scan of `main` builds when it finds
the marker `'P'` in cell `(x, y)`: the centre of that cell, facing north,
with the camera plane `(0.66, 0)`. -/
def spawn_viewpoint (y x : ℕ) : t_player α :=
  { x := (x : α) + 1/2
    y := (y : α) + 1/2
    dirX := 0
    dirY := -1
    planeX := 33/50
    planeY := 0 }

/-- A concrete sample player: the actual spawn of the embedded map
(cell (9,14), centre (9.5, 14.5), facing north). -/
def sample_player : t_player ℚ :=
  { x := 19/2, y := 29/2, dirX := 0, dirY := -1, planeX := 33/50, planeY := 0 }

/-- A concrete player used to exhibit the sequential-commit behaviour of
`move_player`: standing in the open cell (1,5) at (1.99, 5.05), facing
up-right with unit direction (0.6, −0.8) and a perpendicular camera
plane (0.8, 0.6).  One forward step crosses both a column and a row
boundary at once. -/
def sliding_player : t_player ℚ :=
  { x := 199/100, y := 101/20, dirX := 3/5, dirY := -4/5, planeX := 4/5, planeY := 3/5 }

/-- A concrete traversal state over `ℚ`: the ray starts in the spawn
cell (9,14) of the embedded map, stepping right and up. -/
def sample_ray : t_ray ℚ :=
  { cameraX := 0, rayDirX := 0, rayDirY := 0, mapX := 9, mapY := 14,
    deltaDistX := 0, deltaDistY := 0, sideDistX := 0, sideDistY := 0,
    stepX := 1, stepY := -1, hit := false, side := 0, perpWallDist := 0 }

/-- The spawn scan of `main` in cubeascii.c: the nested
`for y in [0,MAP_HEIGHT), for x in [0,MAP_WIDTH)` loops that overwrite
the player with a fresh spawn state at every `'P'` cell.  In C the
player variable is uninitialized until the first marker is found; this
is modelled with `Option` (`none` = never initialized). -/
def spawn_player (rows : List String) : Option (t_player α) :=
  (List.range 16).foldl
    (fun acc (y : ℕ) =>
      (List.range 16).foldl
        (fun acc2 (x : ℕ) =>
          if cell_of rows (y : ℤ) (x : ℤ) = 'P' then some (spawn_viewpoint y x) else acc2)
        acc)
    none

/-- Number of spawn markers `'P'` in the 16×16 grid, used to state the
spawn-marker claim. -/
def spawn_count (rows : List String) : ℕ :=
  ((List.range 16).map
    (fun (y : ℕ) => ((List.range 16).filter
       (fun (x : ℕ) => cell_of rows (y : ℤ) (x : ℤ) = 'P')).length)).sum

/-- The embedded map with a second spawn marker added in cell (1,1):
used to exhibit what the spawn scan does on a grid with two markers. -/
def map_two_markers : List String :=
  [ "1111111111111111",
    "1P00000000000001",
    "1101010101010101",
    "1100000000000001",
    "1000000000001101",
    "1011110001111101",
    "1001100000111101",
    "1001000100100001",
    "1111000000100111",
    "1110111110001111",
    "1010001000001111",
    "1011100001111001",
    "1000011000000001",
    "1011001000000001",
    "100110000P000001",
    "1111111111111111" ]

/-- In-bounds predicate for a traversal state on a `w × h` grid. -/
def ray_in_bounds (w h : ℤ) (ray : t_ray α) : Prop :=
  0 ≤ ray.mapX ∧ ray.mapX < w ∧ 0 ≤ ray.mapY ∧ ray.mapY < h

/-- The termination measure of the DDA traversal on a `w × h` grid: the
number of grid steps left before the current cell reaches the border
towards which each axis is stepping. -/
def dda_measure (w h : ℤ) (ray : t_ray α) : ℤ :=
  (if ray.stepX = 1 then w - 1 - ray.mapX else ray.mapX) +
    (if ray.stepY = 1 then h - 1 - ray.mapY else ray.mapY)

/-- Strictly-inside predicate for a traversal state on a `w × h` grid. -/
def ray_inside (w h : ℤ) (ray : t_ray α) : Prop :=
  1 ≤ ray.mapX ∧ ray.mapX ≤ w - 2 ∧ 1 ≤ ray.mapY ∧ ray.mapY ≤ h - 2

/-- Border invariant of a grid: every cell on the outer border of the
`w × h` rectangle is a wall. -/
def border_walled (g : ℤ → ℤ → Char) (w h : ℤ) : Prop :=
  ∀ x y : ℤ, 0 ≤ x → x < w → 0 ≤ y → y < h →
    (x = 0 ∨ x = w - 1 ∨ y = 0 ∨ y = h - 1) → g y x = '1'

-- === General helper lemmas ===

theorem c_idiv_neg (a b : ℤ) : c_idiv (-a) b = -(c_idiv a b) := by
  unfold c_idiv
  rcases lt_trichotomy a 0 with h | h | h
  · rw [if_pos (by omega), if_neg (by omega), neg_neg]
  · subst h; simp
  · rw [if_neg (by omega), if_pos (by omega), neg_neg]

theorem c_trunc_of_nonneg {r : α} (h : 0 ≤ r) : c_trunc r = ⌊r⌋ := by
  unfold c_trunc; rw [if_pos h]

theorem c_trunc_intCast (n : ℤ) : c_trunc (n : α) = n := by
  unfold c_trunc
  split
  · exact Int.floor_intCast n
  · exact Int.ceil_intCast n

theorem c_trunc_int_add_half (n : ℤ) (hn : 0 ≤ n) :
    c_trunc ((n : α) + 1/2) = n := by
  rw [c_trunc_of_nonneg (by positivity)]
  rw [Int.floor_int_add]
  have : ⌊(1/2 : α)⌋ = 0 := by
    rw [Int.floor_eq_iff] <;> norm_num
  omega

-- === Claim C7: distance-banded shading ===

set_option maxHeartbeats 1600000 in
/-- Claim C7: the shade selection of `get_shade` is monotone in distance
(the red intensity assigned to a closer ray is at least that of a
farther ray), and it uses exactly the five bands `RED_1` … `RED_5`
delimited by the thresholds 1.5, 3.0, 5.0 and 7.0. -/
theorem c7_shade_monotone_bands (d1 d2 : α) (h : d1 < d2) :
    shade_red_level (get_shade d2) ≤ shade_red_level (get_shade d1) ∧
    (∀ d : α, get_shade d ∈ [RED_1, RED_2, RED_3, RED_4, RED_5]) ∧
    (get_shade d1 = RED_1 ↔ d1 < 3/2) ∧
    (get_shade d1 = RED_2 ↔ 3/2 ≤ d1 ∧ d1 < 3) ∧
    (get_shade d1 = RED_3 ↔ 3 ≤ d1 ∧ d1 < 5) ∧
    (get_shade d1 = RED_4 ↔ 5 ≤ d1 ∧ d1 < 7) ∧
    (get_shade d1 = RED_5 ↔ 7 ≤ d1) := by
  have hd : ∀ d : α, get_shade d ∈ [RED_1, RED_2, RED_3, RED_4, RED_5] := by
    intro d
    unfold get_shade
    split_ifs <;> simp
  have n12 : RED_1 ≠ RED_2 := by decide
  have n13 : RED_1 ≠ RED_3 := by decide
  have n14 : RED_1 ≠ RED_4 := by decide
  have n15 : RED_1 ≠ RED_5 := by decide
  have n23 : RED_2 ≠ RED_3 := by decide
  have n24 : RED_2 ≠ RED_4 := by decide
  have n25 : RED_2 ≠ RED_5 := by decide
  have n34 : RED_3 ≠ RED_4 := by decide
  have n35 : RED_3 ≠ RED_5 := by decide
  have n45 : RED_4 ≠ RED_5 := by decide
  have lv1 : shade_red_level RED_1 = 255 := by decide
  have lv2 : shade_red_level RED_2 = 200 := by decide
  have lv3 : shade_red_level RED_3 = 150 := by decide
  have lv4 : shade_red_level RED_4 = 100 := by decide
  have lv5 : shade_red_level RED_5 = 60 := by decide
  refine ⟨?_, hd, ?_, ?_, ?_, ?_, ?_⟩
  · unfold get_shade
    split_ifs <;>
      simp only [lv1, lv2, lv3, lv4, lv5] <;>
      first | (exfalso; linarith) | norm_num
  · unfold get_shade
    split_ifs with h1 h2 h3 h4
    · exact iff_of_true rfl h1
    · exact iff_of_false (Ne.symm n12) h1
    · exact iff_of_false (Ne.symm n13) h1
    · exact iff_of_false (Ne.symm n14) h1
    · exact iff_of_false (Ne.symm n15) h1
  · unfold get_shade
    split_ifs with h1 h2 h3 h4
    · exact iff_of_false n12 (by rintro ⟨ha, _⟩; linarith)
    · exact iff_of_true rfl ⟨le_of_not_lt h1, h2⟩
    · exact iff_of_false (Ne.symm n23) (by rintro ⟨_, hb⟩; linarith)
    · exact iff_of_false (Ne.symm n24) (by rintro ⟨_, hb⟩; linarith)
    · exact iff_of_false (Ne.symm n25) (by rintro ⟨_, hb⟩; linarith)
  · unfold get_shade
    split_ifs with h1 h2 h3 h4
    · exact iff_of_false n13 (by rintro ⟨ha, _⟩; linarith)
    · exact iff_of_false n23 (by rintro ⟨ha, _⟩; linarith)
    · exact iff_of_true rfl ⟨le_of_not_lt h2, h3⟩
    · exact iff_of_false (Ne.symm n34) (by rintro ⟨_, hb⟩; linarith)
    · exact iff_of_false (Ne.symm n35) (by rintro ⟨_, hb⟩; linarith)
  · unfold get_shade
    split_ifs with h1 h2 h3 h4
    · exact iff_of_false n14 (by rintro ⟨ha, _⟩; linarith)
    · exact iff_of_false n24 (by rintro ⟨ha, _⟩; linarith)
    · exact iff_of_false n34 (by rintro ⟨ha, _⟩; linarith)
    · exact iff_of_true rfl ⟨le_of_not_lt h3, h4⟩
    · exact iff_of_false (Ne.symm n45) (by rintro ⟨_, hb⟩; linarith)
  · unfold get_shade
    split_ifs with h1 h2 h3 h4
    · exact iff_of_false n15 (by intro ha; linarith)
    · exact iff_of_false n25 (by intro ha; linarith)
    · exact iff_of_false n35 (by intro ha; linarith)
    · exact iff_of_false n45 (by intro ha; linarith)
    · exact iff_of_true rfl (le_of_not_lt h4)

/-- Witness for C7 at concrete distances 1 and 4 (over `ℚ`). -/
theorem c7_witness :
    shade_red_level (get_shade (4 : ℚ)) ≤ shade_red_level (get_shade (1 : ℚ)) := by
  have h := c7_shade_monotone_bands (1 : ℚ) 4 (by norm_num)
  exact h.1

-- === Claim C6: wall-slice projection geometry ===

/-- Claim C6: for every positive perpendicular wall distance, the column
produced by `compute_wall_slice` is `start = H/2 − lineHeight/2` and
`end = H/2 + lineHeight/2`, each clamped into `[0, H−1]` (both outputs
land in that interval), and the unclamped values satisfy
`start + end = H`, which is within one rounding unit of `H − 1`. -/
theorem c6_slice_centered (ray : t_ray α) (h : 0 < ray.perpWallDist) :
    (compute_wall_slice ray).draw_start =
      (if c_idiv (-(slice_line_height ray.perpWallDist)) 2 + c_idiv SCREEN_HEIGHT 2 < 0
       then 0
       else c_idiv (-(slice_line_height ray.perpWallDist)) 2 + c_idiv SCREEN_HEIGHT 2) ∧
    (compute_wall_slice ray).draw_end =
      (if c_idiv (slice_line_height ray.perpWallDist) 2 + c_idiv SCREEN_HEIGHT 2 ≥ SCREEN_HEIGHT
       then SCREEN_HEIGHT - 1
       else c_idiv (slice_line_height ray.perpWallDist) 2 + c_idiv SCREEN_HEIGHT 2) ∧
    0 ≤ (compute_wall_slice ray).draw_start ∧
    (compute_wall_slice ray).draw_start ≤ SCREEN_HEIGHT - 1 ∧
    0 ≤ (compute_wall_slice ray).draw_end ∧
    (compute_wall_slice ray).draw_end ≤ SCREEN_HEIGHT - 1 ∧
    (c_idiv (-(slice_line_height ray.perpWallDist)) 2 + c_idiv SCREEN_HEIGHT 2) +
        (c_idiv (slice_line_height ray.perpWallDist) 2 + c_idiv SCREEN_HEIGHT 2) =
      SCREEN_HEIGHT ∧
    |(c_idiv (-(slice_line_height ray.perpWallDist)) 2 + c_idiv SCREEN_HEIGHT 2) +
        (c_idiv (slice_line_height ray.perpWallDist) 2 + c_idiv SCREEN_HEIGHT 2) -
        (SCREEN_HEIGHT - 1)| ≤ 1 := by
  set l := slice_line_height ray.perpWallDist with hldef
  have hl : 0 ≤ l := by
    rw [hldef]
    unfold slice_line_height
    have h50 : (0:α) ≤ (SCREEN_HEIGHT : α) := by
      unfold SCREEN_HEIGHT; norm_num
    rw [c_trunc_of_nonneg (div_nonneg h50 (le_of_lt h))]
    exact Int.floor_nonneg.mpr (div_nonneg h50 (le_of_lt h))
  have hpos : c_idiv l 2 = l / 2 := by unfold c_idiv; rw [if_pos hl]
  have hneg : c_idiv (-l) 2 = -(l / 2) := by rw [c_idiv_neg, hpos]
  have h25 : c_idiv SCREEN_HEIGHT 2 = 25 := by decide
  have hS : SCREEN_HEIGHT = 50 := rfl
  have hstart : (compute_wall_slice ray).draw_start =
      (if -(l / 2) + 25 < 0 then 0 else -(l / 2) + 25) := by
    simp only [compute_wall_slice, ← hldef]
    rw [hneg, h25]
  have hstop : (compute_wall_slice ray).draw_end =
      (if l / 2 + 25 ≥ SCREEN_HEIGHT then SCREEN_HEIGHT - 1 else l / 2 + 25) := by
    simp only [compute_wall_slice, ← hldef]
    rw [hpos, h25]
  refine ⟨?_, ?_, ?_, ?_, ?_, ?_, ?_, ?_⟩
  · rw [hstart, hneg, h25]
  · rw [hstop, hpos, h25]
  · rw [hstart]; split_ifs <;> omega
  · rw [hstart, hS]; split_ifs <;> omega
  · rw [hstop, hS]; split_ifs <;> omega
  · rw [hstop, hS]; split_ifs <;> omega
  · rw [hneg, hpos, h25, hS]; omega
  · rw [hneg, hpos, h25, hS]
    have h2 : -(l / 2) + 25 + (l / 2 + 25) - (50 - 1) = 1 := by omega
    rw [h2]; norm_num

/-- Witness for C6 at a concrete ray with perpendicular distance 7 (over
`ℚ`). -/
theorem c6_witness :
    (compute_wall_slice (⟨0, 0, 0, 0, 0, 0, 0, 0, 0, 0, 0, true, 1, (7:ℚ)⟩ : t_ray ℚ)).draw_start =
      (if c_idiv (-(slice_line_height ((⟨0, 0, 0, 0, 0, 0, 0, 0, 0, 0, 0, true, 1, (7:ℚ)⟩ : t_ray ℚ)).perpWallDist)) 2 + c_idiv SCREEN_HEIGHT 2 < 0
       then 0
       else c_idiv (-(slice_line_height ((⟨0, 0, 0, 0, 0, 0, 0, 0, 0, 0, 0, true, 1, (7:ℚ)⟩ : t_ray ℚ)).perpWallDist)) 2 + c_idiv SCREEN_HEIGHT 2) ∧
    0 ≤ (compute_wall_slice (⟨0, 0, 0, 0, 0, 0, 0, 0, 0, 0, 0, true, 1, (7:ℚ)⟩ : t_ray ℚ)).draw_start := by
  have h := c6_slice_centered (⟨0, 0, 0, 0, 0, 0, 0, 0, 0, 0, 0, true, 1, (7:ℚ)⟩ : t_ray ℚ)
    (by norm_num)
  exact ⟨h.1, h.2.2.1⟩

-- === Claim C5: near-zero distance handling in the projection ===

/-- Claim C5 counterexample: there is no positive epsilon such that the
`lineHeight` computation of `compute_wall_slice` behaves as if distances
were clamped from below by that epsilon: for every candidate `ε > 0`
the distance `d = H/(⌊H/ε⌋+1)` lies strictly below `ε` yet yields a
different (larger) `lineHeight` than `ε` itself, so no clamping happens
before the division. -/
theorem c5_counterexample :
    ¬ (∃ eps : ℚ, 0 < eps ∧ ∀ d : ℚ, 0 ≤ d →
        slice_line_height d = slice_line_height (max d eps)) := by
  rintro ⟨eps, heps, hclamp⟩
  have hSc : ((SCREEN_HEIGHT : ℤ) : ℚ) = 50 := by norm_num [SCREEN_HEIGHT]
  set n : ℤ := ⌊(50 : ℚ) / eps⌋ with hn
  have hn0 : 0 ≤ n := Int.floor_nonneg.mpr (div_nonneg (by norm_num) heps.le)
  have hn1 : (0:ℚ) < (n : ℚ) + 1 := by
    have : (0:ℚ) ≤ (n : ℚ) := by exact_mod_cast hn0
    linarith
  set d : ℚ := 50 / ((n : ℚ) + 1) with hd
  have hd0 : 0 < d := by rw [hd]; positivity
  have hfl : (50 : ℚ) / eps < (n : ℚ) + 1 := Int.lt_floor_add_one _
  have hdlt : d < eps := by
    rw [hd, div_lt_iff hn1]
    rw [div_lt_iff heps] at hfl
    nlinarith
  have hA : slice_line_height d = n + 1 := by
    have h1 : (50 : ℚ) / d = (n : ℚ) + 1 := by
      rw [hd]
      field_simp
    unfold slice_line_height
    rw [hSc, h1]
    have : ((n : ℚ) + 1) = ((n + 1 : ℤ) : ℚ) := by push_cast; ring
    rw [this, c_trunc_intCast]
  have hB : slice_line_height (max d eps) = n := by
    have hmax : max d eps = eps := max_eq_right hdlt.le
    unfold slice_line_height
    rw [hmax, hSc, c_trunc_of_nonneg (div_nonneg (by norm_num) heps.le)]
  have := hclamp d hd0.le
  rw [hA, hB] at this
  omega

/-- Claim C5 (amended): `compute_wall_slice` applies no epsilon clamp at
all: the line height is `trunc(H / perpWallDist)` computed directly from
the ray's perpendicular distance, and for distances approaching zero the
computed line height grows without bound (for every `ε > 0` and every
bound `B` there is a distance below `ε` whose line height exceeds `B`),
so the division is indeed performed with values arbitrarily close to
zero. -/
theorem c5_no_clamp_unbounded :
    (∀ d : α, slice_line_height d = c_trunc ((SCREEN_HEIGHT : α) / d)) ∧
    (∀ (eps : α) (B : ℤ), 0 < eps →
       ∃ d : α, 0 < d ∧ d < eps ∧ B ≤ slice_line_height d) := by
  constructor
  · intro d; rfl
  · intro eps B heps
    have hSc : ((SCREEN_HEIGHT : ℤ) : α) = 50 := by norm_num [SCREEN_HEIGHT]
    set K : ℤ := max (max B 1) (⌊(50 : α) / eps⌋ + 1) with hK
    have hK1 : 1 ≤ K := le_trans (le_max_right B 1) (le_max_left _ _)
    have hKB : B ≤ K := le_trans (le_max_left B 1) (le_max_left _ _)
    have hKf : ⌊(50 : α) / eps⌋ + 1 ≤ K := le_max_right _ _
    have hKpos : (0:α) < (K : α) := by exact_mod_cast lt_of_lt_of_le one_pos hK1
    refine ⟨50 / (K : α), div_pos (by norm_num) hKpos, ?_, ?_⟩
    · have hfl : (50 : α) / eps < (⌊(50 : α) / eps⌋ : α) + 1 := Int.lt_floor_add_one _
      have hcast : ((⌊(50 : α) / eps⌋ : α) + 1) ≤ (K : α) := by exact_mod_cast hKf
      have h5K : (50 : α) / eps < (K : α) := lt_of_lt_of_le hfl hcast
      rw [div_lt_iff hKpos]
      rw [div_lt_iff heps] at h5K
      rw [mul_comm]
      exact h5K
    · have hKne : (K : α) ≠ 0 := ne_of_gt hKpos
      have h1 : (50 : α) / (50 / (K : α)) = (K : α) := by field_simp
      unfold slice_line_height
      rw [hSc, h1, c_trunc_intCast]
      exact hKB

/-- Witness for C5 (amended) at `ε = 1/100`, bound `B = 10000`, over `ℚ`. -/
theorem c5_witness :
    ∃ d : ℚ, 0 < d ∧ d < 1/100 ∧ 10000 ≤ slice_line_height d :=
  (@c5_no_clamp_unbounded ℚ _ _).2 (1/100) 10000 (by norm_num)

-- === Movement helper lemmas ===

theorem move_player_w (cosf sinf : α → α) (p : t_player α) :
    move_player cosf sinf p 'w' =
      (let newX := p.x + p.dirX * (1/10)
       let newY := p.y + p.dirY * (1/10)
       let pa := if map_cell (c_trunc newY) (c_trunc p.x) ≠ '1' then { p with y := newY } else p
       if map_cell (c_trunc pa.y) (c_trunc newX) ≠ '1' then { pa with x := newX } else pa) := by
  rfl

theorem move_player_s (cosf sinf : α → α) (p : t_player α) :
    move_player cosf sinf p 's' =
      (let newX := p.x - p.dirX * (1/10)
       let newY := p.y - p.dirY * (1/10)
       let pa := if map_cell (c_trunc newY) (c_trunc p.x) ≠ '1' then { p with y := newY } else p
       if map_cell (c_trunc pa.y) (c_trunc newX) ≠ '1' then { pa with x := newX } else pa) := by
  rfl

theorem move_player_a (cosf sinf : α → α) (p : t_player α) :
    move_player cosf sinf p 'a' =
      (let newX := p.x - p.planeX * (1/10)
       let newY := p.y - p.planeY * (1/10)
       let pa := if map_cell (c_trunc newY) (c_trunc p.x) ≠ '1' then { p with y := newY } else p
       if map_cell (c_trunc pa.y) (c_trunc newX) ≠ '1' then { pa with x := newX } else pa) := by
  rfl

theorem move_player_d (cosf sinf : α → α) (p : t_player α) :
    move_player cosf sinf p 'd' =
      (let newX := p.x + p.planeX * (1/10)
       let newY := p.y + p.planeY * (1/10)
       let pa := if map_cell (c_trunc newY) (c_trunc p.x) ≠ '1' then { p with y := newY } else p
       if map_cell (c_trunc pa.y) (c_trunc newX) ≠ '1' then { pa with x := newX } else pa) := by
  rfl

theorem move_player_e (cosf sinf : α → α) (p : t_player α) :
    move_player cosf sinf p 'e' =
      { p with
        dirX := p.dirX * cosf (1/20) - p.dirY * sinf (1/20),
        dirY := p.dirX * sinf (1/20) + p.dirY * cosf (1/20),
        planeX := p.planeX * cosf (1/20) - p.planeY * sinf (1/20),
        planeY := p.planeX * sinf (1/20) + p.planeY * cosf (1/20) } := by
  rfl

theorem move_player_q (cosf sinf : α → α) (p : t_player α) :
    move_player cosf sinf p 'q' =
      { p with
        dirX := p.dirX * cosf (-(1/20)) - p.dirY * sinf (-(1/20)),
        dirY := p.dirX * sinf (-(1/20)) + p.dirY * cosf (-(1/20)),
        planeX := p.planeX * cosf (-(1/20)) - p.planeY * sinf (-(1/20)),
        planeY := p.planeX * sinf (-(1/20)) + p.planeY * cosf (-(1/20)) } := by
  rfl

theorem move_player_other (cosf sinf : α → α) (p : t_player α) (key : Char)
    (hw : key ≠ 'w') (hs : key ≠ 's') (ha : key ≠ 'a') (hd : key ≠ 'd')
    (he : key ≠ 'e') (hq : key ≠ 'q') :
    move_player cosf sinf p key = p := by
  simp only [move_player, if_neg hw, if_neg hs, if_neg ha, if_neg hd, if_neg he, if_neg hq]

-- === Claim C10: frame effects of movement commands ===

/-- Claim C10: rotate keys leave the position unchanged; translate and
strafe keys leave the direction and camera-plane vectors unchanged; any
other key leaves the whole player unchanged. -/
theorem c10_frame_effects (cosf sinf : α → α) (p : t_player α) (key : Char) :
    ((key = 'e' ∨ key = 'q') →
      (move_player cosf sinf p key).x = p.x ∧ (move_player cosf sinf p key).y = p.y) ∧
    ((key = 'w' ∨ key = 's' ∨ key = 'a' ∨ key = 'd') →
      (move_player cosf sinf p key).dirX = p.dirX ∧
      (move_player cosf sinf p key).dirY = p.dirY ∧
      (move_player cosf sinf p key).planeX = p.planeX ∧
      (move_player cosf sinf p key).planeY = p.planeY) ∧
    (key ∉ (['w', 's', 'a', 'd', 'e', 'q'] : List Char) →
      move_player cosf sinf p key = p) := by
  refine ⟨?_, ?_, ?_⟩
  · rintro (rfl | rfl)
    · rw [move_player_e]; exact ⟨rfl, rfl⟩
    · rw [move_player_q]; exact ⟨rfl, rfl⟩
  · rintro (rfl | rfl | rfl | rfl)
    · rw [move_player_w]; dsimp only; split_ifs <;> exact ⟨rfl, rfl, rfl, rfl⟩
    · rw [move_player_s]; dsimp only; split_ifs <;> exact ⟨rfl, rfl, rfl, rfl⟩
    · rw [move_player_a]; dsimp only; split_ifs <;> exact ⟨rfl, rfl, rfl, rfl⟩
    · rw [move_player_d]; dsimp only; split_ifs <;> exact ⟨rfl, rfl, rfl, rfl⟩
  · intro h
    simp only [List.mem_cons, List.not_mem_nil, or_false] at h
    push_neg at h
    obtain ⟨hw, hs, ha, hd, he, hq⟩ := h
    exact move_player_other cosf sinf p key hw hs ha hd he hq

/-- Witness for C10 over `ℚ`: rotation `'e'` fixes the position, `'w'`
fixes the direction/plane vectors, and `'z'` fixes the whole player, at
the spawn viewpoint. -/
theorem c10_witness :
    ((@move_player ℚ _ _ (fun _ => 0) (fun _ => 0) (@spawn_viewpoint ℚ _ 14 9) 'e').x =
        (@spawn_viewpoint ℚ _ 14 9).x ∧
      (@move_player ℚ _ _ (fun _ => 0) (fun _ => 0) (@spawn_viewpoint ℚ _ 14 9) 'e').y =
        (@spawn_viewpoint ℚ _ 14 9).y) ∧
    (@move_player ℚ _ _ (fun _ => 0) (fun _ => 0) (@spawn_viewpoint ℚ _ 14 9) 'w').dirX =
      (@spawn_viewpoint ℚ _ 14 9).dirX ∧
    @move_player ℚ _ _ (fun _ => 0) (fun _ => 0) (@spawn_viewpoint ℚ _ 14 9) 'z' =
      @spawn_viewpoint ℚ _ 14 9 := by
  refine ⟨?_, ?_, ?_⟩
  · exact (c10_frame_effects (fun _ => 0) (fun _ => 0) (@spawn_viewpoint ℚ _ 14 9) 'e').1
      (Or.inl rfl)
  · exact ((c10_frame_effects (fun _ => 0) (fun _ => 0) (@spawn_viewpoint ℚ _ 14 9) 'w').2.1
      (Or.inl rfl)).1
  · exact (c10_frame_effects (fun _ => 0) (fun _ => 0) (@spawn_viewpoint ℚ _ 14 9) 'z').2.2
      (by decide)

-- === Claim C2: movement preserves the open-cell invariant ===

/-- Claim C2: if the player's position lies in a non-wall cell of the
map then, after any movement command, it still lies in a non-wall cell
(movement never fails; blocked components are simply left unchanged). -/
theorem c2_position_stays_open (cosf sinf : α → α) (p : t_player α) (key : Char)
    (hopen : map_cell (c_trunc p.y) (c_trunc p.x) ≠ '1') :
    map_cell (c_trunc (move_player cosf sinf p key).y)
      (c_trunc (move_player cosf sinf p key).x) ≠ '1' := by
  by_cases hw : key = 'w'
  · subst hw
    rw [move_player_w]; dsimp only
    split_ifs with h1 h2 h3
    · exact h2
    · exact h1
    · exact h3
    · exact hopen
  by_cases hs : key = 's'
  · subst hs
    rw [move_player_s]; dsimp only
    split_ifs with h1 h2 h3
    · exact h2
    · exact h1
    · exact h3
    · exact hopen
  by_cases ha : key = 'a'
  · subst ha
    rw [move_player_a]; dsimp only
    split_ifs with h1 h2 h3
    · exact h2
    · exact h1
    · exact h3
    · exact hopen
  by_cases hd : key = 'd'
  · subst hd
    rw [move_player_d]; dsimp only
    split_ifs with h1 h2 h3
    · exact h2
    · exact h1
    · exact h3
    · exact hopen
  by_cases he : key = 'e'
  · subst he
    rw [move_player_e]; exact hopen
  by_cases hq : key = 'q'
  · subst hq
    rw [move_player_q]; exact hopen
  rw [move_player_other cosf sinf p key hw hs ha hd he hq]
  exact hopen

/-- Witness for C2 at the spawn viewpoint (cell (9,14), a non-wall cell)
with a forward move, over `ℚ`. -/
theorem c2_witness :
    map_cell
      (c_trunc (@move_player ℚ _ _ (fun _ => 0) (fun _ => 0) (@spawn_viewpoint ℚ _ 14 9) 'w').y)
      (c_trunc (@move_player ℚ _ _ (fun _ => 0) (fun _ => 0) (@spawn_viewpoint ℚ _ 14 9) 'w').x)
      ≠ '1' := by
  apply c2_position_stays_open
  show map_cell (c_trunc ((14:ℚ) + 1/2)) (c_trunc ((9:ℚ) + 1/2)) ≠ '1'
  have h14 : c_trunc ((14:ℚ) + 1/2) = 14 := by
    have := @c_trunc_int_add_half ℚ _ _ 14 (by norm_num)
    simpa using this
  have h9 : c_trunc ((9:ℚ) + 1/2) = 9 := by
    have := @c_trunc_int_add_half ℚ _ _ 9 (by norm_num)
    simpa using this
  rw [h14, h9]
  decide

-- === Claim C1: axis-separated collision with sliding ===

theorem axis_move_core (p : t_player α) (nX nY : α) :
    ((if map_cell (c_trunc ((if map_cell (c_trunc nY) (c_trunc p.x) ≠ '1'
          then { p with y := nY } else p) : t_player α).y) (c_trunc nX) ≠ '1'
      then { (if map_cell (c_trunc nY) (c_trunc p.x) ≠ '1'
              then { p with y := nY } else p) with x := nX }
      else (if map_cell (c_trunc nY) (c_trunc p.x) ≠ '1'
            then { p with y := nY } else p)) : t_player α).y =
      (if map_cell (c_trunc nY) (c_trunc p.x) ≠ '1' then nY else p.y) ∧
    ((if map_cell (c_trunc ((if map_cell (c_trunc nY) (c_trunc p.x) ≠ '1'
          then { p with y := nY } else p) : t_player α).y) (c_trunc nX) ≠ '1'
      then { (if map_cell (c_trunc nY) (c_trunc p.x) ≠ '1'
              then { p with y := nY } else p) with x := nX }
      else (if map_cell (c_trunc nY) (c_trunc p.x) ≠ '1'
            then { p with y := nY } else p)) : t_player α).x =
      (if map_cell
            (c_trunc ((if map_cell (c_trunc ((if map_cell (c_trunc nY) (c_trunc p.x) ≠ '1'
                then { p with y := nY } else p) : t_player α).y) (c_trunc nX) ≠ '1'
              then { (if map_cell (c_trunc nY) (c_trunc p.x) ≠ '1'
                      then { p with y := nY } else p) with x := nX }
              else (if map_cell (c_trunc nY) (c_trunc p.x) ≠ '1'
                    then { p with y := nY } else p)) : t_player α).y)
            (c_trunc nX) ≠ '1'
       then nX else p.x) ∧
    (map_cell (c_trunc nY) (c_trunc p.x) ≠ '1' →
     map_cell (c_trunc nY) (c_trunc nX) = '1' →
     ((if map_cell (c_trunc ((if map_cell (c_trunc nY) (c_trunc p.x) ≠ '1'
          then { p with y := nY } else p) : t_player α).y) (c_trunc nX) ≠ '1'
        then { (if map_cell (c_trunc nY) (c_trunc p.x) ≠ '1'
                then { p with y := nY } else p) with x := nX }
        else (if map_cell (c_trunc nY) (c_trunc p.x) ≠ '1'
              then { p with y := nY } else p)) : t_player α).x = p.x ∧
      ((if map_cell (c_trunc ((if map_cell (c_trunc nY) (c_trunc p.x) ≠ '1'
          then { p with y := nY } else p) : t_player α).y) (c_trunc nX) ≠ '1'
        then { (if map_cell (c_trunc nY) (c_trunc p.x) ≠ '1'
                then { p with y := nY } else p) with x := nX }
        else (if map_cell (c_trunc nY) (c_trunc p.x) ≠ '1'
              then { p with y := nY } else p)) : t_player α).y = nY) := by
  by_cases h1 : map_cell (c_trunc nY) (c_trunc p.x) ≠ '1'
  · by_cases h2 : map_cell (c_trunc nY) (c_trunc nX) ≠ '1'
    · have h2' : map_cell (c_trunc ({ p with y := nY } : t_player α).y) (c_trunc nX) ≠ '1' := h2
      refine ⟨?_, ?_, fun _ hX => absurd hX h2⟩ <;>
        simp only [if_pos h1, if_pos h2, if_pos h2']
    · have h2' : ¬ map_cell (c_trunc ({ p with y := nY } : t_player α).y) (c_trunc nX) ≠ '1' := h2
      refine ⟨?_, ?_, fun _ _ => ⟨?_, ?_⟩⟩ <;>
        simp only [if_pos h1, if_neg h2, if_neg h2']
  · refine ⟨?_, ?_, fun hY _ => absurd hY h1⟩
    · by_cases h3 : map_cell (c_trunc p.y) (c_trunc nX) ≠ '1'
      · simp only [if_neg h1, if_pos h3]
      · simp only [if_neg h1, if_neg h3]
    · by_cases h3 : map_cell (c_trunc p.y) (c_trunc nX) ≠ '1'
      · simp only [if_neg h1, if_pos h3]
      · simp only [if_neg h1, if_neg h3]

/-- Claim C1 (amended): for the translate/strafe commands the two
position components are checked and committed separately, in sequence:
the candidate new Y is committed iff the cell at (current X, new Y) is
not a wall; the candidate new X is then committed iff the cell at
(new X, Y′) is not a wall, where Y′ is the possibly already-updated Y
component (the post-command Y), not the pre-command Y.  In particular
sliding holds: if the Y component is unobstructed and the X component is
blocked (with respect to the updated Y), the command updates Y and
leaves X unchanged. -/
theorem c1_axis_separated_sliding (cosf sinf : α → α) (p : t_player α)
    (key : Char) (dX dY : α)
    (hkey : (key = 'w' ∧ dX = p.dirX ∧ dY = p.dirY) ∨
            (key = 's' ∧ dX = -p.dirX ∧ dY = -p.dirY) ∨
            (key = 'a' ∧ dX = -p.planeX ∧ dY = -p.planeY) ∨
            (key = 'd' ∧ dX = p.planeX ∧ dY = p.planeY)) :
    (move_player cosf sinf p key).y =
      (if map_cell (c_trunc (p.y + dY * (1/10))) (c_trunc p.x) ≠ '1'
       then p.y + dY * (1/10) else p.y) ∧
    (move_player cosf sinf p key).x =
      (if map_cell (c_trunc (move_player cosf sinf p key).y)
            (c_trunc (p.x + dX * (1/10))) ≠ '1'
       then p.x + dX * (1/10) else p.x) ∧
    (map_cell (c_trunc (p.y + dY * (1/10))) (c_trunc p.x) ≠ '1' →
     map_cell (c_trunc (p.y + dY * (1/10))) (c_trunc (p.x + dX * (1/10))) = '1' →
     (move_player cosf sinf p key).x = p.x ∧
       (move_player cosf sinf p key).y = p.y + dY * (1/10)) := by
  rcases hkey with ⟨hk, hdX, hdY⟩ | ⟨hk, hdX, hdY⟩ | ⟨hk, hdX, hdY⟩ | ⟨hk, hdX, hdY⟩ <;>
    subst hk <;> subst hdX <;> subst hdY
  · rw [move_player_w]
    exact axis_move_core p (p.x + p.dirX * (1/10)) (p.y + p.dirY * (1/10))
  · rw [move_player_s]
    rw [show p.x - p.dirX * (1/10) = p.x + -p.dirX * (1/10) from by ring,
        show p.y - p.dirY * (1/10) = p.y + -p.dirY * (1/10) from by ring]
    exact axis_move_core p (p.x + -p.dirX * (1/10)) (p.y + -p.dirY * (1/10))
  · rw [move_player_a]
    rw [show p.x - p.planeX * (1/10) = p.x + -p.planeX * (1/10) from by ring,
        show p.y - p.planeY * (1/10) = p.y + -p.planeY * (1/10) from by ring]
    exact axis_move_core p (p.x + -p.planeX * (1/10)) (p.y + -p.planeY * (1/10))
  · rw [move_player_d]
    exact axis_move_core p (p.x + p.planeX * (1/10)) (p.y + p.planeY * (1/10))

/-- Witness for C1 (amended) at the spawn viewpoint with a forward move
(over `ℚ`). -/
theorem c1_witness :
    (@move_player ℚ _ _ (fun _ => 0) (fun _ => 0) sample_player 'w').y =
      (if map_cell (c_trunc (sample_player.y + (-1 : ℚ) * (1/10))) (c_trunc sample_player.x) ≠ '1'
       then sample_player.y + (-1 : ℚ) * (1/10) else sample_player.y) ∧
    (@move_player ℚ _ _ (fun _ => 0) (fun _ => 0) sample_player 'w').x =
      (if map_cell (c_trunc (@move_player ℚ _ _ (fun _ => 0) (fun _ => 0) sample_player 'w').y)
            (c_trunc (sample_player.x + (0 : ℚ) * (1/10))) ≠ '1'
       then sample_player.x + (0 : ℚ) * (1/10) else sample_player.x) ∧
    (map_cell (c_trunc (sample_player.y + (-1 : ℚ) * (1/10))) (c_trunc sample_player.x) ≠ '1' →
     map_cell (c_trunc (sample_player.y + (-1 : ℚ) * (1/10)))
       (c_trunc (sample_player.x + (0 : ℚ) * (1/10))) = '1' →
     (@move_player ℚ _ _ (fun _ => 0) (fun _ => 0) sample_player 'w').x = sample_player.x ∧
       (@move_player ℚ _ _ (fun _ => 0) (fun _ => 0) sample_player 'w').y =
         sample_player.y + (-1 : ℚ) * (1/10)) :=
  c1_axis_separated_sliding (fun _ => 0) (fun _ => 0) sample_player 'w' 0 (-1)
    (Or.inl ⟨rfl, rfl, rfl⟩)

/-- Claim C1 counterexample: the claim as stated reads both commit
checks against the PRE-command position ("current Y"), i.e. the X
component would be committed iff the cell at (new X, current Y) is open.
The code instead checks the X move against the already-updated Y.  At
`sliding_player` (position (1.99, 5.05), direction (0.6, −0.8)), a
forward move crosses into row 4 and column 2 simultaneously: the cell
(2, 4) reached diagonally is open, so the code commits X (new x = 2.05),
while the cell (2, 5) named by the claim is a wall, so the claim as
stated demands that X stay 1.99.  Hence the stated property is false. -/
theorem c1_counterexample :
    ¬ (∀ (cosf sinf : ℚ → ℚ) (p : t_player ℚ) (key : Char) (dX dY : ℚ),
        ((key = 'w' ∧ dX = p.dirX ∧ dY = p.dirY) ∨
         (key = 's' ∧ dX = -p.dirX ∧ dY = -p.dirY) ∨
         (key = 'a' ∧ dX = -p.planeX ∧ dY = -p.planeY) ∨
         (key = 'd' ∧ dX = p.planeX ∧ dY = p.planeY)) →
        (move_player cosf sinf p key).y =
          (if map_cell (c_trunc (p.y + dY * (1/10))) (c_trunc p.x) ≠ '1'
           then p.y + dY * (1/10) else p.y) ∧
        (move_player cosf sinf p key).x =
          (if map_cell (c_trunc p.y) (c_trunc (p.x + dX * (1/10))) ≠ '1'
           then p.x + dX * (1/10) else p.x)) := by
  intro hcl
  have h := hcl (fun _ => 0) (fun _ => 0) sliding_player 'w' (3/5) (-4/5)
    (Or.inl ⟨rfl, rfl, rfl⟩)
  have e1 : c_trunc (sliding_player.y + (-4/5 : ℚ) * (1/10)) = 4 := by
    show c_trunc ((101 : ℚ)/20 + (-4/5 : ℚ) * (1/10)) = 4
    have harg : (101 : ℚ)/20 + (-4/5 : ℚ) * (1/10) = 497/100 := by norm_num
    rw [harg, c_trunc_of_nonneg (by norm_num)]
    norm_num
  have e2 : c_trunc sliding_player.x = 1 := by
    show c_trunc ((199 : ℚ)/100) = 1
    rw [c_trunc_of_nonneg (by norm_num)]
    norm_num
  have e3 : c_trunc (sliding_player.x + (3/5 : ℚ) * (1/10)) = 2 := by
    show c_trunc ((199 : ℚ)/100 + (3/5 : ℚ) * (1/10)) = 2
    have harg : (199 : ℚ)/100 + (3/5 : ℚ) * (1/10) = 205/100 := by norm_num
    rw [harg, c_trunc_of_nonneg (by norm_num)]
    norm_num
  have e4 : c_trunc sliding_player.y = 5 := by
    show c_trunc ((101 : ℚ)/20) = 5
    rw [c_trunc_of_nonneg (by norm_num)]
    norm_num
  -- what the code actually does: commit Y to 4.97, then commit X to 2.05
  have hx : (@move_player ℚ _ _ (fun _ => 0) (fun _ => 0) sliding_player 'w').x =
      (41 : ℚ)/20 := by
    rw [move_player_w]
    dsimp only
    rw [show sliding_player.dirY = (-4/5 : ℚ) from rfl,
        show sliding_player.dirX = (3/5 : ℚ) from rfl, e1, e2]
    rw [if_pos (by decide : map_cell 4 1 ≠ '1')]
    dsimp only
    rw [e1, e3]
    rw [if_pos (by decide : map_cell 4 2 ≠ '1')]
    show (199 : ℚ)/100 + 3/5 * (1/10) = (41 : ℚ)/20
    norm_num
  -- what the claim as stated demands: X stays in place
  have hstated := h.2
  rw [e4, e3] at hstated
  rw [if_neg (by decide : ¬ map_cell 5 2 ≠ '1')] at hstated
  have hq : sliding_player.x = (41 : ℚ)/20 := hstated.symm.trans hx
  have hcontr : (199 : ℚ)/100 = (41 : ℚ)/20 := hq
  norm_num at hcontr

-- === Claim C8: rotation preserves orthogonality and plane magnitude ===

theorem rotate_preserves (dx dy px py c s : α) (hcs : c^2 + s^2 = 1) :
    (dx * c - dy * s) * (px * c - py * s) + (dx * s + dy * c) * (px * s + py * c) =
      dx * px + dy * py ∧
    (px * c - py * s)^2 + (px * s + py * c)^2 = px^2 + py^2 := by
  constructor
  · linear_combination (dx * px + dy * py) * hcs
  · linear_combination (px^2 + py^2) * hcs

theorem move_rot_step (p : t_player ℝ) (key : Char) (hkey : key = 'e' ∨ key = 'q')
    (hdot : p.dirX * p.planeX + p.dirY * p.planeY = 0) :
    (move_player Real.cos Real.sin p key).dirX * (move_player Real.cos Real.sin p key).planeX +
      (move_player Real.cos Real.sin p key).dirY * (move_player Real.cos Real.sin p key).planeY
        = 0 ∧
    (move_player Real.cos Real.sin p key).planeX^2 +
        (move_player Real.cos Real.sin p key).planeY^2 = p.planeX^2 + p.planeY^2 := by
  rcases hkey with rfl | rfl
  · rw [move_player_e]
    have hcs : Real.cos (1/20)^2 + Real.sin (1/20)^2 = 1 := Real.cos_sq_add_sin_sq _
    have h := rotate_preserves p.dirX p.dirY p.planeX p.planeY
      (Real.cos (1/20)) (Real.sin (1/20)) hcs
    exact ⟨h.1.trans hdot, h.2⟩
  · rw [move_player_q]
    have hcs : Real.cos (-(1/20))^2 + Real.sin (-(1/20))^2 = 1 := Real.cos_sq_add_sin_sq _
    have h := rotate_preserves p.dirX p.dirY p.planeX p.planeY
      (Real.cos (-(1/20))) (Real.sin (-(1/20))) hcs
    exact ⟨h.1.trans hdot, h.2⟩

/-- Claim C8: for a player whose direction and camera-plane vectors are
perpendicular, any finite sequence of rotate commands (`'e'`, `'q'`,
each applying the same 2D rotation to both vectors simultaneously via
`cos`/`sin` of ±rotSpeed) keeps the dot product of the two vectors
exactly 0 and preserves the squared magnitude of the camera plane
exactly (in the exact-real model; "within tolerance" in floats). -/
theorem c8_rotation_orthogonal (p : t_player ℝ) (keys : List Char)
    (hkeys : ∀ k ∈ keys, k = 'e' ∨ k = 'q')
    (hdot : p.dirX * p.planeX + p.dirY * p.planeY = 0) :
    (keys.foldl (move_player Real.cos Real.sin) p).dirX *
        (keys.foldl (move_player Real.cos Real.sin) p).planeX +
      (keys.foldl (move_player Real.cos Real.sin) p).dirY *
        (keys.foldl (move_player Real.cos Real.sin) p).planeY = 0 ∧
    (keys.foldl (move_player Real.cos Real.sin) p).planeX^2 +
        (keys.foldl (move_player Real.cos Real.sin) p).planeY^2 =
      p.planeX^2 + p.planeY^2 := by
  induction keys generalizing p with
  | nil => exact ⟨hdot, rfl⟩
  | cons k ks ih =>
    have hk := hkeys k (List.mem_cons_self k ks)
    have hs := move_rot_step p k hk hdot
    have hrest := ih (move_player Real.cos Real.sin p k)
      (fun k' hk' => hkeys k' (List.mem_cons_of_mem _ hk')) hs.1
    simp only [List.foldl_cons]
    exact ⟨hrest.1, hrest.2.trans hs.2⟩

/-- Witness for C8: the spawn viewpoint (direction (0,−1), plane
(0.66, 0)) rotated by the key sequence e, q, e. -/
theorem c8_witness :
    ((['e', 'q', 'e'] : List Char).foldl (move_player Real.cos Real.sin)
          (⟨19/2, 29/2, 0, -1, 33/50, 0⟩ : t_player ℝ)).dirX *
        ((['e', 'q', 'e'] : List Char).foldl (move_player Real.cos Real.sin)
          (⟨19/2, 29/2, 0, -1, 33/50, 0⟩ : t_player ℝ)).planeX +
      ((['e', 'q', 'e'] : List Char).foldl (move_player Real.cos Real.sin)
          (⟨19/2, 29/2, 0, -1, 33/50, 0⟩ : t_player ℝ)).dirY *
        ((['e', 'q', 'e'] : List Char).foldl (move_player Real.cos Real.sin)
          (⟨19/2, 29/2, 0, -1, 33/50, 0⟩ : t_player ℝ)).planeY = 0 ∧
    ((['e', 'q', 'e'] : List Char).foldl (move_player Real.cos Real.sin)
          (⟨19/2, 29/2, 0, -1, 33/50, 0⟩ : t_player ℝ)).planeX^2 +
        ((['e', 'q', 'e'] : List Char).foldl (move_player Real.cos Real.sin)
          (⟨19/2, 29/2, 0, -1, 33/50, 0⟩ : t_player ℝ)).planeY^2 =
      (⟨19/2, 29/2, 0, -1, 33/50, 0⟩ : t_player ℝ).planeX^2 +
        (⟨19/2, 29/2, 0, -1, 33/50, 0⟩ : t_player ℝ).planeY^2 :=
  c8_rotation_orthogonal (⟨19/2, 29/2, 0, -1, 33/50, 0⟩ : t_player ℝ) ['e', 'q', 'e']
    (by decide)
    (by show (0:ℝ) * (33/50) + (-1) * 0 = 0; norm_num)

-- === Claim C3: DDA termination inside a walled border ===

theorem dda_step_eq_pos (g : ℤ → ℤ → Char) (r : t_ray α)
    (hc : r.sideDistX < r.sideDistY) :
    dda_step g r =
      (let r1 : t_ray α := { r with sideDistX := r.sideDistX + r.deltaDistX,
                                    mapX := r.mapX + r.stepX, side := 0 }
       if g r1.mapY r1.mapX = '1' then { r1 with hit := true } else r1) := by
  unfold dda_step
  rw [if_pos hc]

theorem dda_step_eq_neg (g : ℤ → ℤ → Char) (r : t_ray α)
    (hc : ¬ r.sideDistX < r.sideDistY) :
    dda_step g r =
      (let r1 : t_ray α := { r with sideDistY := r.sideDistY + r.deltaDistY,
                                    mapY := r.mapY + r.stepY, side := 1 }
       if g r1.mapY r1.mapX = '1' then { r1 with hit := true } else r1) := by
  unfold dda_step
  rw [if_neg hc]

theorem dda_step_spec (g : ℤ → ℤ → Char) (r : t_ray α) :
    (dda_step g r).stepX = r.stepX ∧ (dda_step g r).stepY = r.stepY ∧
    (dda_step g r).hit =
      (r.hit || decide (g (dda_step g r).mapY (dda_step g r).mapX = '1')) ∧
    ((r.sideDistX < r.sideDistY ∧ (dda_step g r).mapX = r.mapX + r.stepX ∧
        (dda_step g r).mapY = r.mapY ∧ (dda_step g r).side = 0) ∨
     (¬ r.sideDistX < r.sideDistY ∧ (dda_step g r).mapX = r.mapX ∧
        (dda_step g r).mapY = r.mapY + r.stepY ∧ (dda_step g r).side = 1)) := by
  by_cases hc : r.sideDistX < r.sideDistY
  · rw [dda_step_eq_pos g r hc]
    dsimp only
    split_ifs with hw
    · exact ⟨rfl, rfl, by simp [hw], Or.inl ⟨hc, rfl, rfl, rfl⟩⟩
    · exact ⟨rfl, rfl, by simp [hw], Or.inl ⟨hc, rfl, rfl, rfl⟩⟩
  · rw [dda_step_eq_neg g r hc]
    dsimp only
    split_ifs with hw
    · exact ⟨rfl, rfl, by simp [hw], Or.inr ⟨hc, rfl, rfl, rfl⟩⟩
    · exact ⟨rfl, rfl, by simp [hw], Or.inr ⟨hc, rfl, rfl, rfl⟩⟩

theorem dda_iter_zero (g : ℤ → ℤ → Char) (r : t_ray α) : dda_iter g 0 r = r := rfl

theorem dda_iter_succ (g : ℤ → ℤ → Char) (n : ℕ) (r : t_ray α) :
    dda_iter g (n + 1) r = dda_iter g n (dda_step g r) :=
  Function.iterate_succ_apply _ _ _

theorem dda_loop_of_hit (g : ℤ → ℤ → Char) (fuel : ℕ) (r : t_ray α)
    (h : r.hit = true) : dda_loop g fuel r = r := by
  cases fuel <;> simp [dda_loop, h]

theorem dda_step_inside_props (g : ℤ → ℤ → Char) (w hh : ℤ) (r : t_ray α)
    (hb : border_walled g w hh)
    (hsx : r.stepX = 1 ∨ r.stepX = -1) (hsy : r.stepY = 1 ∨ r.stepY = -1)
    (hin : ray_inside w hh r) :
    ray_in_bounds w hh (dda_step g r) ∧
    dda_measure w hh (dda_step g r) = dda_measure w hh r - 1 ∧
    ((dda_step g r).hit = false → ray_inside w hh (dda_step g r)) ∧
    (r.hit = false → (dda_step g r).hit = true →
      g (dda_step g r).mapY (dda_step g r).mapX = '1') := by
  obtain ⟨hsX, hsY, hhit, hcase⟩ := dda_step_spec g r
  obtain ⟨ha, hb2, hc2, hd2⟩ := hin
  have hbounds : ray_in_bounds w hh (dda_step g r) := by
    unfold ray_in_bounds
    rcases hcase with ⟨_, hmx, hmy, _⟩ | ⟨_, hmx, hmy, _⟩ <;>
      rcases hsx with h1 | h1 <;> rcases hsy with h2 | h2 <;>
      rw [hmx, hmy] <;> omega
  have hwall_of_hit : r.hit = false → (dda_step g r).hit = true →
      g (dda_step g r).mapY (dda_step g r).mapX = '1' := by
    intro h0 h1
    rw [h0] at hhit
    rw [h1] at hhit
    simpa using hhit.symm
  refine ⟨hbounds, ?_, ?_, hwall_of_hit⟩
  · unfold dda_measure
    rcases hcase with ⟨_, hmx, hmy, _⟩ | ⟨_, hmx, hmy, _⟩ <;>
      rcases hsx with h1 | h1 <;> rcases hsy with h2 | h2 <;>
      rw [hsX, hsY, hmx, hmy, h1, h2] <;> norm_num <;> omega
  · intro hnohit
    have hnotwall : g (dda_step g r).mapY (dda_step g r).mapX ≠ '1' := by
      intro hcontr
      rw [hnohit] at hhit
      rw [hcontr] at hhit
      simp at hhit
    unfold ray_inside
    obtain ⟨b1, b2, b3, b4⟩ := hbounds
    by_contra hcon
    push_neg at hcon
    have hborder : (dda_step g r).mapX = 0 ∨ (dda_step g r).mapX = w - 1 ∨
        (dda_step g r).mapY = 0 ∨ (dda_step g r).mapY = hh - 1 := by omega
    exact hnotwall (hb _ _ b1 b2 b3 b4 hborder)

theorem dda_reaches_wall (g : ℤ → ℤ → Char) (w hh : ℤ) (K : ℕ) :
    ∀ r : t_ray α, border_walled g w hh →
      (r.stepX = 1 ∨ r.stepX = -1) → (r.stepY = 1 ∨ r.stepY = -1) →
      ray_inside w hh r → r.hit = false → dda_measure w hh r ≤ K →
      ∃ n : ℕ, n ≤ K ∧ (dda_iter g n r).hit = true ∧
        g (dda_iter g n r).mapY (dda_iter g n r).mapX = '1' ∧
        (∀ m : ℕ, m ≤ n → ray_in_bounds w hh (dda_iter g m r)) ∧
        (∀ fuel : ℕ, n ≤ fuel → dda_loop g fuel r = dda_iter g n r) := by
  induction K with
  | zero =>
    intro r _ hsx hsy hin _ hK
    exfalso
    have h2 : 2 ≤ dda_measure w hh r := by
      obtain ⟨a, b, c, d⟩ := hin
      unfold dda_measure
      rcases hsx with h1 | h1 <;> rcases hsy with hy1 | hy1 <;>
        rw [h1, hy1] <;> norm_num <;> omega
    simp only [Nat.cast_zero] at hK
    omega
  | succ K ih =>
    intro r hb hsx hsy hin hhit hK
    obtain ⟨hbnd, hmeas, hinside, hcell⟩ := dda_step_inside_props g w hh r hb hsx hsy hin
    have hin_bounds : ray_in_bounds w hh r := by
      obtain ⟨a, b, c, d⟩ := hin
      exact ⟨by omega, by omega, by omega, by omega⟩
    by_cases hh2 : (dda_step g r).hit = true
    · refine ⟨1, by omega, ?_, ?_, ?_, ?_⟩
      · rw [dda_iter_succ, dda_iter_zero]; exact hh2
      · rw [dda_iter_succ, dda_iter_zero]; exact hcell hhit hh2
      · intro m hm
        interval_cases m
        · rw [dda_iter_zero]; exact hin_bounds
        · rw [dda_iter_succ, dda_iter_zero]; exact hbnd
      · intro fuel hf
        obtain ⟨f, rfl⟩ : ∃ f, fuel = f + 1 := ⟨fuel - 1, by omega⟩
        show dda_loop g (f + 1) r = _
        rw [dda_iter_succ, dda_iter_zero]
        simp only [dda_loop, hhit]
        rw [if_neg (by simp)]
        exact dda_loop_of_hit g f _ hh2
    · have hh3 : (dda_step g r).hit = false := by
        cases hcase : (dda_step g r).hit
        · rfl
        · exact absurd hcase hh2
      have hsx' : (dda_step g r).stepX = 1 ∨ (dda_step g r).stepX = -1 := by
        rw [(dda_step_spec g r).1]; exact hsx
      have hsy' : (dda_step g r).stepY = 1 ∨ (dda_step g r).stepY = -1 := by
        rw [(dda_step_spec g r).2.1]; exact hsy
      have hmeas' : dda_measure w hh (dda_step g r) ≤ K := by
        rw [hmeas]
        push_cast at hK ⊢
        omega
      obtain ⟨n, hnK, hhit', hcell', hbounds', hloop'⟩ :=
        ih (dda_step g r) hb hsx' hsy' (hinside hh3) hh3 hmeas'
      refine ⟨n + 1, by omega, ?_, ?_, ?_, ?_⟩
      · rw [dda_iter_succ]; exact hhit'
      · rw [dda_iter_succ]; exact hcell'
      · intro m hm
        cases m with
        | zero => rw [dda_iter_zero]; exact hin_bounds
        | succ m' => rw [dda_iter_succ]; exact hbounds' m' (by omega)
      · intro fuel hf
        obtain ⟨f, rfl⟩ : ∃ f, fuel = f + 1 := ⟨fuel - 1, by omega⟩
        show dda_loop g (f + 1) r = _
        rw [dda_iter_succ]
        simp only [dda_loop, hhit]
        rw [if_neg (by simp)]
        exact hloop' f (by omega)

/-- Claim C3: on any grid whose outer border is entirely walls, starting
from any cell strictly inside with any step signs (±1) and any side- and
delta-distances, the DDA loop reaches a wall cell within at most
`w + h` iterations (indeed fewer), every visited cell is within the grid
bounds, and any run of the fuel-limited loop with at least that much
fuel returns that wall-hit state. -/
theorem c3_dda_terminates (g : ℤ → ℤ → Char) (w hh : ℤ) (r : t_ray α)
    (hb : border_walled g w hh)
    (hsx : r.stepX = 1 ∨ r.stepX = -1) (hsy : r.stepY = 1 ∨ r.stepY = -1)
    (hin : ray_inside w hh r) (hhit : r.hit = false) :
    ∃ n : ℕ, (n : ℤ) ≤ w + hh ∧ (dda_iter g n r).hit = true ∧
      g (dda_iter g n r).mapY (dda_iter g n r).mapX = '1' ∧
      (∀ m : ℕ, m ≤ n → ray_in_bounds w hh (dda_iter g m r)) ∧
      (∀ fuel : ℕ, n ≤ fuel → dda_loop g fuel r = dda_iter g n r) := by
  have hwh : 0 ≤ w + hh := by
    obtain ⟨a, b, c, d⟩ := hin
    omega
  have hmeas : dda_measure w hh r ≤ ((w + hh).toNat : ℤ) := by
    rw [Int.toNat_of_nonneg hwh]
    obtain ⟨a, b, c, d⟩ := hin
    unfold dda_measure
    rcases hsx with h1 | h1 <;> rcases hsy with h2 | h2 <;>
      rw [h1, h2] <;> norm_num <;> omega
  obtain ⟨n, hnK, hrest⟩ :=
    dda_reaches_wall g w hh (w + hh).toNat r hb hsx hsy hin hhit hmeas
  refine ⟨n, ?_, hrest⟩
  have := Int.toNat_of_nonneg hwh
  omega

/-- The embedded 16×16 map of cubeascii.c has a fully walled border. -/
theorem map_cell_border : border_walled map_cell 16 16 := by
  intro x y hx hxw hy hyh hb
  obtain ⟨a, rfl⟩ : ∃ a : ℕ, x = (a : ℤ) := ⟨x.toNat, (Int.toNat_of_nonneg hx).symm⟩
  obtain ⟨b, rfl⟩ : ∃ b : ℕ, y = (b : ℤ) := ⟨y.toNat, (Int.toNat_of_nonneg hy).symm⟩
  have ha : a < 16 := by exact_mod_cast hxw
  have hb' : b < 16 := by exact_mod_cast hyh
  have hbb : a = 0 ∨ a = 15 ∨ b = 0 ∨ b = 15 := by omega
  have H : ∀ a' : ℕ, a' < 16 → ∀ b' : ℕ, b' < 16 →
      (a' = 0 ∨ a' = 15 ∨ b' = 0 ∨ b' = 15) → map_cell (b' : ℤ) (a' : ℤ) = '1' := by decide
  exact H a ha b hb' hbb

/-- Witness for C3: the concrete start state `sample_ray` in the spawn
cell of the embedded map. -/
theorem c3_witness :
    ∃ n : ℕ, (n : ℤ) ≤ 16 + 16 ∧ (dda_iter map_cell n sample_ray).hit = true ∧
      map_cell (dda_iter map_cell n sample_ray).mapY
        (dda_iter map_cell n sample_ray).mapX = '1' ∧
      (∀ m : ℕ, m ≤ n → ray_in_bounds 16 16 (dda_iter map_cell m sample_ray)) ∧
      (∀ fuel : ℕ, n ≤ fuel →
        dda_loop map_cell fuel sample_ray = dda_iter map_cell n sample_ray) :=
  c3_dda_terminates map_cell 16 16 sample_ray map_cell_border
    (Or.inl rfl) (Or.inr rfl) ⟨by decide, by decide, by decide, by decide⟩ rfl

-- === Claim C4: perpendicular wall distance ===

theorem dda_iter_succ2 (g : ℤ → ℤ → Char) (n : ℕ) (r : t_ray α) :
    dda_iter g (n + 1) r = dda_step g (dda_iter g n r) :=
  Function.iterate_succ_apply' _ _ _

theorem dda_loop_eq_iter (g : ℤ → ℤ → Char) :
    ∀ (n : ℕ) (r : t_ray α),
      (∀ m : ℕ, m < n → (dda_iter g m r).hit = false) →
      (dda_iter g n r).hit = true →
      ∀ fuel : ℕ, n ≤ fuel → dda_loop g fuel r = dda_iter g n r := by
  intro n
  induction n with
  | zero =>
    intro r _ hn fuel _
    rw [dda_iter_zero] at hn
    rw [dda_iter_zero]
    exact dda_loop_of_hit g fuel r hn
  | succ n ih =>
    intro r hfree hn fuel hf
    obtain ⟨f, rfl⟩ : ∃ f, fuel = f + 1 := ⟨fuel - 1, by omega⟩
    have h0 : r.hit = false := by
      have := hfree 0 (by omega)
      rwa [dda_iter_zero] at this
    show dda_loop g (f + 1) r = _
    simp only [dda_loop]
    rw [if_neg (by simp [h0])]
    rw [dda_iter_succ]
    exact ih (dda_step g r)
      (fun m hm => by rw [← dda_iter_succ]; exact hfree (m + 1) (by omega))
      (by rw [← dda_iter_succ]; exact hn) f (by omega)

theorem dda_scenario_y (g : ℤ → ℤ → Char) (x y : ℤ) (σ : ℤ) (d : ℕ)
    (hd : 1 ≤ d) (hdle : (d : ℤ) ≤ 10^6)
    (hopen : ∀ k : ℕ, k < d → 1 ≤ k → g (y + σ * k) x ≠ '1')
    (hwall : g (y + σ * d) x = '1') (fuel : ℕ) (hfuel : d ≤ fuel) :
    perform_dda g fuel
        ({ cameraX := 0, rayDirX := 0, rayDirY := (σ : α), mapX := x, mapY := y,
           deltaDistX := 1e30, deltaDistY := 1, sideDistX := 1e30/2, sideDistY := 1/2,
           stepX := 1, stepY := σ, hit := false, side := 0, perpWallDist := 0 } : t_ray α) =
      { cameraX := 0, rayDirX := 0, rayDirY := (σ : α), mapX := x, mapY := y + σ * d,
        deltaDistX := 1e30, deltaDistY := 1, sideDistX := 1e30/2,
        sideDistY := 1/2 + (d : α),
        stepX := 1, stepY := σ, hit := true, side := 1,
        perpWallDist := (1/2 + (d : α)) - 1 } := by
  set r0 : t_ray α :=
    { cameraX := 0, rayDirX := 0, rayDirY := (σ : α), mapX := x, mapY := y,
      deltaDistX := 1e30, deltaDistY := 1, sideDistX := 1e30/2, sideDistY := 1/2,
      stepX := 1, stepY := σ, hit := false, side := 0, perpWallDist := 0 } with hr0
  have hiter : ∀ k : ℕ, k ≤ d →
      dda_iter g k r0 =
        { cameraX := 0, rayDirX := 0, rayDirY := (σ : α), mapX := x, mapY := y + σ * (k : ℤ),
          deltaDistX := 1e30, deltaDistY := 1, sideDistX := 1e30/2,
          sideDistY := 1/2 + (k : α),
          stepX := 1, stepY := σ, hit := decide (k = d),
          side := if k = 0 then 0 else 1, perpWallDist := 0 } := by
    intro k
    induction k with
    | zero =>
      intro _
      rw [dda_iter_zero, hr0]
      simp only [t_ray.mk.injEq]
      refine ⟨trivial, trivial, trivial, trivial, by push_cast; ring, trivial, trivial,
        trivial, by push_cast; ring, trivial, trivial, ?_, by simp, trivial⟩
      rw [decide_eq_false (by omega : ¬ (0 = d))]
    | succ k ihk =>
      intro hk1
      have hk : k ≤ d := by omega
      rw [dda_iter_succ2, ihk hk]
      have hkle : (k : α) ≤ 10^6 := by
        have h1 : (k : ℤ) ≤ 10^6 := by
          have : (k : ℤ) ≤ (d : ℤ) := by exact_mod_cast hk
          omega
        exact_mod_cast h1
      have hbig : ((10:α)^6) + 1/2 < 1e30/2 := by norm_num
      have hcomp : ¬ ((1e30/2 : α) < 1/2 + (k : α)) := by
        push_neg
        linarith
      rw [dda_step_eq_neg g _ hcomp]
      dsimp only
      have harg : (y + σ * (k : ℤ)) + σ = y + σ * (((k + 1 : ℕ)) : ℤ) := by
        push_cast
        ring
      rw [harg]
      by_cases hkd : k + 1 = d
      · rw [hkd, if_pos hwall]
        simp only [t_ray.mk.injEq]
        refine ⟨trivial, trivial, trivial, trivial, trivial, trivial, trivial,
          trivial, ?_, trivial, trivial, by simp, ?_, trivial⟩
        · rw [← hkd]; push_cast; ring
        · rw [if_neg (by omega : ¬ (d = 0))]
      · rw [if_neg (hopen (k + 1) (by omega) (by omega))]
        simp only [t_ray.mk.injEq]
        refine ⟨trivial, trivial, trivial, trivial, trivial, trivial, trivial, trivial,
          by push_cast; ring, trivial, trivial, ?_, ?_, trivial⟩
        · rw [decide_eq_false (by omega : ¬ (k = d)),
            decide_eq_false (by omega : ¬ (k + 1 = d))]
        · rw [if_neg (by omega : ¬ (k + 1 = 0))]
  have hfree : ∀ m : ℕ, m < d → (dda_iter g m r0).hit = false := by
    intro m hm
    rw [hiter m (le_of_lt hm)]
    exact decide_eq_false (by omega)
  have hhit : (dda_iter g d r0).hit = true := by
    rw [hiter d le_rfl]
    simp
  unfold perform_dda
  rw [dda_loop_eq_iter g d r0 hfree hhit fuel hfuel, hiter d le_rfl]
  have hside : (if d = 0 then (0:ℤ) else 1) = 1 := if_neg (by omega)
  rw [hside]
  rw [if_neg (by norm_num : ¬ ((1:ℤ) = 0))]
  simp only [t_ray.mk.injEq]
  refine ⟨trivial, trivial, trivial, trivial, trivial, trivial, trivial, trivial,
    trivial, trivial, trivial, by simp, trivial, trivial⟩

theorem dda_scenario_x (g : ℤ → ℤ → Char) (x y : ℤ) (σ : ℤ) (d : ℕ)
    (hd : 1 ≤ d) (hdle : (d : ℤ) ≤ 10^6)
    (hopen : ∀ k : ℕ, k < d → 1 ≤ k → g y (x + σ * k) ≠ '1')
    (hwall : g y (x + σ * d) = '1') (fuel : ℕ) (hfuel : d ≤ fuel) :
    perform_dda g fuel
        ({ cameraX := 0, rayDirX := (σ : α), rayDirY := 0, mapX := x, mapY := y,
           deltaDistX := 1, deltaDistY := 1e30, sideDistX := 1/2, sideDistY := 1e30/2,
           stepX := σ, stepY := 1, hit := false, side := 0, perpWallDist := 0 } : t_ray α) =
      { cameraX := 0, rayDirX := (σ : α), rayDirY := 0, mapX := x + σ * d, mapY := y,
        deltaDistX := 1, deltaDistY := 1e30, sideDistX := 1/2 + (d : α),
        sideDistY := 1e30/2,
        stepX := σ, stepY := 1, hit := true, side := 0,
        perpWallDist := (1/2 + (d : α)) - 1 } := by
  set r0 : t_ray α :=
    { cameraX := 0, rayDirX := (σ : α), rayDirY := 0, mapX := x, mapY := y,
      deltaDistX := 1, deltaDistY := 1e30, sideDistX := 1/2, sideDistY := 1e30/2,
      stepX := σ, stepY := 1, hit := false, side := 0, perpWallDist := 0 } with hr0
  have hiter : ∀ k : ℕ, k ≤ d →
      dda_iter g k r0 =
        { cameraX := 0, rayDirX := (σ : α), rayDirY := 0, mapX := x + σ * (k : ℤ),
          mapY := y, deltaDistX := 1, deltaDistY := 1e30,
          sideDistX := 1/2 + (k : α), sideDistY := 1e30/2,
          stepX := σ, stepY := 1, hit := decide (k = d),
          side := 0, perpWallDist := 0 } := by
    intro k
    induction k with
    | zero =>
      intro _
      rw [dda_iter_zero, hr0]
      simp only [t_ray.mk.injEq]
      refine ⟨trivial, trivial, trivial, by push_cast; ring, trivial, trivial, trivial,
        by push_cast; ring, trivial, trivial, trivial, ?_, trivial, trivial⟩
      rw [decide_eq_false (by omega : ¬ (0 = d))]
    | succ k ihk =>
      intro hk1
      have hk : k ≤ d := by omega
      rw [dda_iter_succ2, ihk hk]
      have hkle : (k : α) ≤ 10^6 := by
        have h1 : (k : ℤ) ≤ 10^6 := by
          have : (k : ℤ) ≤ (d : ℤ) := by exact_mod_cast hk
          omega
        exact_mod_cast h1
      have hcomp : ((1/2 : α) + (k : α) < 1e30/2) := by
        have hbig : ((10:α)^6) + 1/2 < 1e30/2 := by norm_num
        linarith
      rw [dda_step_eq_pos g _ hcomp]
      dsimp only
      have harg : (x + σ * (k : ℤ)) + σ = x + σ * (((k + 1 : ℕ)) : ℤ) := by
        push_cast
        ring
      rw [harg]
      by_cases hkd : k + 1 = d
      · rw [hkd, if_pos hwall]
        simp only [t_ray.mk.injEq]
        refine ⟨trivial, trivial, trivial, trivial, trivial, trivial, trivial,
          ?_, trivial, trivial, trivial, by simp, trivial, trivial⟩
        rw [← hkd]; push_cast; ring
      · rw [if_neg (hopen (k + 1) (by omega) (by omega))]
        simp only [t_ray.mk.injEq]
        refine ⟨trivial, trivial, trivial, trivial, trivial, trivial, trivial,
          by push_cast; ring, trivial, trivial, trivial, ?_, trivial, trivial⟩
        rw [decide_eq_false (by omega : ¬ (k = d)),
          decide_eq_false (by omega : ¬ (k + 1 = d))]
  have hfree : ∀ m : ℕ, m < d → (dda_iter g m r0).hit = false := by
    intro m hm
    rw [hiter m (le_of_lt hm)]
    exact decide_eq_false (by omega)
  have hhit : (dda_iter g d r0).hit = true := by
    rw [hiter d le_rfl]
    simp
  unfold perform_dda
  rw [dda_loop_eq_iter g d r0 hfree hhit fuel hfuel, hiter d le_rfl]
  rw [if_pos (by trivial : ((0:ℤ) = 0))]
  simp only [t_ray.mk.injEq]
  refine ⟨trivial, trivial, trivial, trivial, trivial, trivial, trivial, trivial,
    trivial, trivial, trivial, by simp, trivial, trivial⟩

theorem init_ray_45 (x y : ℤ) (hx : 0 ≤ x) (hy : 0 ≤ y) (dX dY pX pY : α) :
    init_ray 45 (⟨(x : α) + 1/2, (y : α) + 1/2, dX, dY, pX, pY⟩ : t_player α) =
      { cameraX := 0, rayDirX := dX, rayDirY := dY, mapX := x, mapY := y,
        deltaDistX := if dX ≠ 0 then |1/dX| else 1e30,
        deltaDistY := if dY ≠ 0 then |1/dY| else 1e30,
        sideDistX := 0, sideDistY := 0, stepX := 0, stepY := 0,
        hit := false, side := 0, perpWallDist := 0 } := by
  have hcam : 2 * ((45 : ℤ) : α) / (SCREEN_WIDTH : α) - 1 = 0 := by
    norm_num [SCREEN_WIDTH]
  unfold init_ray
  dsimp only
  rw [hcam]
  rw [show dX + pX * 0 = dX from by ring, show dY + pY * 0 = dY from by ring]
  rw [c_trunc_int_add_half x hx, c_trunc_int_add_half y hy]

theorem steps_axis_y (x y : ℤ) (σ : ℤ) (hσ : σ = 1 ∨ σ = -1) (pX pY : α) :
    compute_initial_steps
        ({ cameraX := 0, rayDirX := 0, rayDirY := (σ : α), mapX := x, mapY := y,
           deltaDistX := 1e30, deltaDistY := 1, sideDistX := 0, sideDistY := 0,
           stepX := 0, stepY := 0, hit := false, side := 0, perpWallDist := 0 } : t_ray α)
        (⟨(x : α) + 1/2, (y : α) + 1/2, 0, (σ : α), pX, pY⟩ : t_player α) =
      { cameraX := 0, rayDirX := 0, rayDirY := (σ : α), mapX := x, mapY := y,
        deltaDistX := 1e30, deltaDistY := 1, sideDistX := 1e30/2, sideDistY := 1/2,
        stepX := 1, stepY := σ, hit := false, side := 0, perpWallDist := 0 } := by
  unfold compute_initial_steps
  dsimp only
  rw [if_neg (lt_irrefl (0 : α))]
  rcases hσ with rfl | rfl
  · rw [if_neg (by push_cast; norm_num : ¬ (((1 : ℤ) : α) < 0))]
    simp only [t_ray.mk.injEq]
    refine ⟨trivial, trivial, trivial, trivial, trivial, trivial, trivial,
      by push_cast; ring, by push_cast; ring, trivial, trivial, trivial, trivial, trivial⟩
  · rw [if_pos (by push_cast; norm_num : (((-1 : ℤ) : α) < 0))]
    simp only [t_ray.mk.injEq]
    refine ⟨trivial, trivial, trivial, trivial, trivial, trivial, trivial,
      by push_cast; ring, by push_cast; ring, trivial, trivial, trivial, trivial, trivial⟩

theorem steps_axis_x (x y : ℤ) (σ : ℤ) (hσ : σ = 1 ∨ σ = -1) (pX pY : α) :
    compute_initial_steps
        ({ cameraX := 0, rayDirX := (σ : α), rayDirY := 0, mapX := x, mapY := y,
           deltaDistX := 1, deltaDistY := 1e30, sideDistX := 0, sideDistY := 0,
           stepX := 0, stepY := 0, hit := false, side := 0, perpWallDist := 0 } : t_ray α)
        (⟨(x : α) + 1/2, (y : α) + 1/2, (σ : α), 0, pX, pY⟩ : t_player α) =
      { cameraX := 0, rayDirX := (σ : α), rayDirY := 0, mapX := x, mapY := y,
        deltaDistX := 1, deltaDistY := 1e30, sideDistX := 1/2, sideDistY := 1e30/2,
        stepX := σ, stepY := 1, hit := false, side := 0, perpWallDist := 0 } := by
  unfold compute_initial_steps
  dsimp only
  rcases hσ with rfl | rfl
  · rw [if_neg (by push_cast; norm_num : ¬ (((1 : ℤ) : α) < 0))]
    rw [if_neg (lt_irrefl (0 : α))]
    simp only [t_ray.mk.injEq]
    refine ⟨trivial, trivial, trivial, trivial, trivial, trivial, trivial,
      by push_cast; ring, by push_cast; ring, trivial, trivial, trivial, trivial, trivial⟩
  · rw [if_pos (by push_cast; norm_num : (((-1 : ℤ) : α) < 0))]
    rw [if_neg (lt_irrefl (0 : α))]
    simp only [t_ray.mk.injEq]
    refine ⟨trivial, trivial, trivial, trivial, trivial, trivial, trivial,
      by push_cast; ring, by push_cast; ring, trivial, trivial, trivial, trivial, trivial⟩

/-- Claim C4 (amended): the perpendicular wall distance computed by
`perform_dda` is `sideDistX − deltaDistX` when the final step was on the
X axis (side 0) and `sideDistY − deltaDistY` otherwise; and for a
Viewpoint at a cell centre `(x+0.5, y+0.5)` facing straight along a grid
axis (direction (0,±1) or (±1,0)) with the straight-ahead ray (column
45, camera offset 0) and the nearest wall `d` whole cells away along
that axis, the computed perpendicular distance is `d − 1/2` — the exact
distance from the viewpoint to the near face of the wall — not `d`. -/
theorem c4_perp_distance :
    (∀ (g : ℤ → ℤ → Char) (fuel : ℕ) (r : t_ray α),
       (perform_dda g fuel r).perpWallDist =
         (if (dda_loop g fuel r).side = 0
          then (dda_loop g fuel r).sideDistX - (dda_loop g fuel r).deltaDistX
          else (dda_loop g fuel r).sideDistY - (dda_loop g fuel r).deltaDistY)) ∧
    (∀ (g : ℤ → ℤ → Char) (x y σ : ℤ) (d : ℕ) (pX pY : α) (fuel : ℕ),
       0 ≤ x → 0 ≤ y → (σ = 1 ∨ σ = -1) → 1 ≤ d → (d : ℤ) ≤ 10^6 → d ≤ fuel →
       (∀ k : ℕ, k < d → 1 ≤ k → g (y + σ * k) x ≠ '1') → g (y + σ * d) x = '1' →
       (perform_dda g fuel
           (compute_initial_steps
             (init_ray 45 (⟨(x:α) + 1/2, (y:α) + 1/2, 0, (σ:α), pX, pY⟩ : t_player α))
             (⟨(x:α) + 1/2, (y:α) + 1/2, 0, (σ:α), pX, pY⟩ : t_player α))).perpWallDist =
           (d : α) - 1/2 ∧
         (perform_dda g fuel
           (compute_initial_steps
             (init_ray 45 (⟨(x:α) + 1/2, (y:α) + 1/2, 0, (σ:α), pX, pY⟩ : t_player α))
             (⟨(x:α) + 1/2, (y:α) + 1/2, 0, (σ:α), pX, pY⟩ : t_player α))).side = 1) ∧
    (∀ (g : ℤ → ℤ → Char) (x y σ : ℤ) (d : ℕ) (pX pY : α) (fuel : ℕ),
       0 ≤ x → 0 ≤ y → (σ = 1 ∨ σ = -1) → 1 ≤ d → (d : ℤ) ≤ 10^6 → d ≤ fuel →
       (∀ k : ℕ, k < d → 1 ≤ k → g y (x + σ * k) ≠ '1') → g y (x + σ * d) = '1' →
       (perform_dda g fuel
           (compute_initial_steps
             (init_ray 45 (⟨(x:α) + 1/2, (y:α) + 1/2, (σ:α), 0, pX, pY⟩ : t_player α))
             (⟨(x:α) + 1/2, (y:α) + 1/2, (σ:α), 0, pX, pY⟩ : t_player α))).perpWallDist =
           (d : α) - 1/2 ∧
         (perform_dda g fuel
           (compute_initial_steps
             (init_ray 45 (⟨(x:α) + 1/2, (y:α) + 1/2, (σ:α), 0, pX, pY⟩ : t_player α))
             (⟨(x:α) + 1/2, (y:α) + 1/2, (σ:α), 0, pX, pY⟩ : t_player α))).side = 0) := by
  refine ⟨?_, ?_, ?_⟩
  · intro g fuel r
    unfold perform_dda
    dsimp only
    split_ifs with hh <;> rfl
  · intro g x y σ d pX pY fuel hx hy hσ hd hdle hfuel hopen hwall
    rw [init_ray_45 x y hx hy 0 (σ : α) pX pY]
    rw [show (if (0:α) ≠ 0 then |1/(0:α)| else 1e30) = 1e30 from by norm_num]
    rw [show (if ((σ:α)) ≠ 0 then |1/((σ:α))| else 1e30) = 1 from by
          rcases hσ with rfl | rfl <;> push_cast <;> norm_num]
    rw [steps_axis_y x y σ hσ pX pY]
    rw [dda_scenario_y g x y σ d hd hdle hopen hwall fuel hfuel]
    constructor
    · show (1/2 + (d : α)) - 1 = (d : α) - 1/2
      ring
    · trivial
  · intro g x y σ d pX pY fuel hx hy hσ hd hdle hfuel hopen hwall
    rw [init_ray_45 x y hx hy (σ : α) 0 pX pY]
    rw [show (if (0:α) ≠ 0 then |1/(0:α)| else 1e30) = 1e30 from by norm_num]
    rw [show (if ((σ:α)) ≠ 0 then |1/((σ:α))| else 1e30) = 1 from by
          rcases hσ with rfl | rfl <;> push_cast <;> norm_num]
    rw [steps_axis_x x y σ hσ pX pY]
    rw [dda_scenario_x g x y σ d hd hdle hopen hwall fuel hfuel]
    constructor
    · show (1/2 + (d : α)) - 1 = (d : α) - 1/2
      ring
    · trivial

/-- Witness for C4 (amended): the spawn viewpoint (9.5, 14.5) facing
north on the embedded map; the nearest wall along the facing axis is 3
cells up (row 11), and the straight-ahead ray reports distance 2.5 with
hit side Y. -/
theorem c4_witness :
    (perform_dda map_cell 32
        (compute_initial_steps
          (init_ray 45 (⟨((9:ℤ):ℚ) + 1/2, ((14:ℤ):ℚ) + 1/2, 0, (((-1):ℤ):ℚ), 33/50, 0⟩ :
            t_player ℚ))
          (⟨((9:ℤ):ℚ) + 1/2, ((14:ℤ):ℚ) + 1/2, 0, (((-1):ℤ):ℚ), 33/50, 0⟩ :
            t_player ℚ))).perpWallDist = ((3:ℕ) : ℚ) - 1/2 ∧
    (perform_dda map_cell 32
        (compute_initial_steps
          (init_ray 45 (⟨((9:ℤ):ℚ) + 1/2, ((14:ℤ):ℚ) + 1/2, 0, (((-1):ℤ):ℚ), 33/50, 0⟩ :
            t_player ℚ))
          (⟨((9:ℤ):ℚ) + 1/2, ((14:ℤ):ℚ) + 1/2, 0, (((-1):ℤ):ℚ), 33/50, 0⟩ :
            t_player ℚ))).side = 1 :=
  (@c4_perp_distance ℚ _ _).2.1 map_cell 9 14 (-1) 3 (33/50) 0 32
    (by norm_num) (by norm_num) (Or.inr rfl) (by norm_num) (by norm_num) (by norm_num)
    (by decide) (by decide)

/-- Claim C4 counterexample: the claim as stated demands that the
straight-ahead perpendicular distance to a wall `d` whole cells away
equal `d`.  At the actual spawn of the embedded map (cell (9,14), centre
(9.5, 14.5), facing north) the nearest wall along the axis is 3 cells
away (row 11), but the code computes `sideDistY − deltaDistY = 2.5`,
the distance to the wall's near face, not 3. -/
theorem c4_counterexample :
    ¬ (∀ (g : ℤ → ℤ → Char) (x y : ℤ) (d : ℕ) (pX pY : ℚ) (fuel : ℕ),
        0 ≤ x → 0 ≤ y → 1 ≤ d → (d : ℤ) ≤ 10^6 → d ≤ fuel →
        (∀ k : ℕ, k < d → 1 ≤ k → g (y + (-1) * k) x ≠ '1') → g (y + (-1) * d) x = '1' →
        (perform_dda g fuel
            (compute_initial_steps
              (init_ray 45 (⟨(x:ℚ) + 1/2, (y:ℚ) + 1/2, 0, (((-1):ℤ):ℚ), pX, pY⟩ :
                t_player ℚ))
              (⟨(x:ℚ) + 1/2, (y:ℚ) + 1/2, 0, (((-1):ℤ):ℚ), pX, pY⟩ :
                t_player ℚ))).perpWallDist = (d : ℚ)) := by
  intro hcl
  have h := hcl map_cell 9 14 3 (33/50) 0 32 (by norm_num) (by norm_num) (by norm_num)
    (by norm_num) (by norm_num) (by decide) (by decide)
  have hval : (perform_dda map_cell 32
      (compute_initial_steps
        (init_ray 45 (⟨((9:ℤ):ℚ) + 1/2, ((14:ℤ):ℚ) + 1/2, 0, (((-1):ℤ):ℚ), 33/50, 0⟩ :
          t_player ℚ))
        (⟨((9:ℤ):ℚ) + 1/2, ((14:ℤ):ℚ) + 1/2, 0, (((-1):ℤ):ℚ), 33/50, 0⟩ :
          t_player ℚ))).perpWallDist = ((3:ℕ) : ℚ) - 1/2 := by
    rw [init_ray_45 9 14 (by norm_num) (by norm_num) 0 (((-1):ℤ):ℚ) (33/50) 0]
    rw [show (if (0:ℚ) ≠ 0 then |1/(0:ℚ)| else 1e30) = 1e30 from by norm_num]
    rw [show (if ((((-1):ℤ):ℚ)) ≠ 0 then |1/((((-1):ℤ):ℚ))| else 1e30) = 1 from by
          push_cast; norm_num]
    rw [steps_axis_y 9 14 (-1) (Or.inr rfl) (33/50) 0]
    rw [dda_scenario_y map_cell 9 14 (-1) 3 (by norm_num) (by norm_num)
      (by decide) (by decide) 32 (by norm_num)]
    show (1/2 + ((3:ℕ) : ℚ)) - 1 = ((3:ℕ) : ℚ) - 1/2
    ring
  rw [h] at hval
  norm_num at hval

-- === Claim C9: spawn-marker handling in the startup scan ===

theorem foldl_if_range_none {β : Type} (P : ℕ → Prop) [DecidablePred P] (f : ℕ → β)
    (a : Option β) (n : ℕ) (h : ∀ i, i < n → ¬ P i) :
    (List.range n).foldl (fun acc i => if P i then some (f i) else acc) a = a := by
  induction n with
  | zero => rfl
  | succ n ih =>
    rw [List.range_succ, List.foldl_append]
    simp only [List.foldl_cons, List.foldl_nil]
    rw [if_neg (h n (by omega))]
    exact ih (fun i hi => h i (by omega))

theorem foldl_if_range_last {β : Type} (P : ℕ → Prop) [DecidablePred P] (f : ℕ → β) :
    ∀ (n : ℕ) (a : Option β) (j : ℕ), j < n → P j → (∀ i, j < i → i < n → ¬ P i) →
      (List.range n).foldl (fun acc i => if P i then some (f i) else acc) a =
        some (f j) := by
  intro n
  induction n with
  | zero => intro a j hj; omega
  | succ n ih =>
    intro a j hj hPj hafter
    rw [List.range_succ, List.foldl_append]
    simp only [List.foldl_cons, List.foldl_nil]
    by_cases hjn : j = n
    · subst hjn; rw [if_pos hPj]
    · rw [if_neg (hafter n (by omega) (by omega))]
      exact ih a j (by omega) hPj (fun i h1 h2 => hafter i h1 (by omega))

theorem foldl_range_fix {β : Type} (F : Option β → ℕ → Option β) :
    ∀ (n : ℕ) (a : Option β), (∀ b i, i < n → F b i = b) →
      (List.range n).foldl F a = a := by
  intro n
  induction n with
  | zero => intro a _; rfl
  | succ n ih =>
    intro a hid
    rw [List.range_succ, List.foldl_append]
    simp only [List.foldl_cons, List.foldl_nil]
    rw [ih a (fun b i hi => hid b i (by omega)), hid a n (by omega)]

theorem foldl_range_const {β : Type} (F : Option β → ℕ → Option β) (c : Option β) :
    ∀ (n : ℕ) (a : Option β) (j : ℕ), j < n → (∀ b, F b j = c) →
      (∀ b i, j < i → i < n → F b i = b) →
      (List.range n).foldl F a = c := by
  intro n
  induction n with
  | zero => intro a j hj; omega
  | succ n ih =>
    intro a j hj hconst hid
    rw [List.range_succ, List.foldl_append]
    simp only [List.foldl_cons, List.foldl_nil]
    by_cases hjn : j = n
    · subst hjn; rw [hconst]
    · rw [hid _ n (by omega) (by omega)]
      exact ih a j (by omega) hconst (fun b i h1 h2 => hid b i h1 (by omega))

theorem spawn_scan_none (rows : List String)
    (hno : ∀ y : ℕ, y < 16 → ∀ x : ℕ, x < 16 → cell_of rows (y : ℤ) (x : ℤ) ≠ 'P') :
    (spawn_player rows : Option (t_player α)) = none := by
  unfold spawn_player
  exact foldl_range_fix _ 16 none
    (fun b y hy => foldl_if_range_none _ _ b 16 (fun x hx => hno y hy x hx))

theorem spawn_scan_last (rows : List String) (ys xs : ℕ)
    (hys : ys < 16) (hxs : xs < 16)
    (hP : cell_of rows (ys : ℤ) (xs : ℤ) = 'P')
    (hlast : ∀ y' : ℕ, y' < 16 → ∀ x' : ℕ, x' < 16 →
      (ys < y' ∨ (y' = ys ∧ xs < x')) → cell_of rows (y' : ℤ) (x' : ℤ) ≠ 'P') :
    (spawn_player rows : Option (t_player α)) = some (spawn_viewpoint ys xs) := by
  unfold spawn_player
  refine foldl_range_const _ _ 16 none ys hys ?_ ?_
  · intro b
    exact foldl_if_range_last _ _ 16 b xs hxs hP
      (fun i h1 h2 => hlast ys hys i h2 (Or.inr ⟨rfl, h1⟩))
  · intro b y' h1 h2
    exact foldl_if_range_none _ _ b 16 (fun x' hx' => hlast y' h2 x' hx' (Or.inl h1))

/-- Claim C9 (amended): the startup scan never fails: with no `'P'`
marker in the 16×16 grid the player is simply never initialized
(undefined in C, modelled as `none`), and with one or more markers the
initial Viewpoint is the centre of the LAST marker in row-major scan
order, with direction (0,−1) and camera plane (0.66, 0) — later markers
silently overwrite earlier ones and no `ConfigurationError` of any kind
is raised. -/
theorem c9_spawn_markers :
    (∀ rows : List String,
       (∀ y : ℕ, y < 16 → ∀ x : ℕ, x < 16 → cell_of rows (y : ℤ) (x : ℤ) ≠ 'P') →
       (spawn_player rows : Option (t_player α)) = none) ∧
    (∀ (rows : List String) (ys xs : ℕ), ys < 16 → xs < 16 →
       cell_of rows (ys : ℤ) (xs : ℤ) = 'P' →
       (∀ y' : ℕ, y' < 16 → ∀ x' : ℕ, x' < 16 →
         (ys < y' ∨ (y' = ys ∧ xs < x')) → cell_of rows (y' : ℤ) (x' : ℤ) ≠ 'P') →
       (spawn_player rows : Option (t_player α)) = some (spawn_viewpoint ys xs)) :=
  ⟨fun rows hno => spawn_scan_none rows hno,
   fun rows ys xs hys hxs hP hlast => spawn_scan_last rows ys xs hys hxs hP hlast⟩

/-- Witness for C9 (amended): an empty grid yields no spawn, and the
embedded map yields the spawn at the centre of its unique marker,
cell (9,14). -/
theorem c9_witness :
    (spawn_player [] : Option (t_player ℚ)) = none ∧
    (spawn_player map : Option (t_player ℚ)) = some (spawn_viewpoint 14 9) :=
  ⟨(@c9_spawn_markers ℚ _ _).1 [] (by decide),
   (@c9_spawn_markers ℚ _ _).2 map 14 9 (by decide) (by decide) (by decide) (by decide)⟩

/-- Claim C9 counterexample: the claim as stated demands a
construction-time failure when the grid does not have exactly one spawn
marker.  `map_two_markers` has two markers (cells (1,1) and (9,14)), so
its spawn count is 2, yet the scan of `main` happily produces an
initialized player — the centre of the later marker — rather than any
failure. -/
theorem c9_counterexample :
    ¬ (∀ rows : List String, spawn_count rows ≠ 1 →
        (spawn_player rows : Option (t_player ℚ)) = none) := by
  intro hcl
  have hc : spawn_count map_two_markers = 2 := by decide
  have h := hcl map_two_markers (by rw [hc]; omega)
  have h2 : (spawn_player map_two_markers : Option (t_player ℚ)) =
      some (spawn_viewpoint 14 9) :=
    spawn_scan_last map_two_markers 14 9 (by decide) (by decide) (by decide) (by decide)
  rw [h] at h2
  exact Option.noConfusion h2

end CubeAscii
